import Mathlib

/-!
Shallow embedding of the contact-tracking and pose-fusion pipeline of
the `mc_state_observation` repository (source files
`src/observersTools/leggedOdometryTools.cpp`,
`include/mc_state_observation/observersTools/leggedOdometryTools.h` and
`include/mc_state_observation/measurements/ContactsManager.h`).

Modelling conventions:
* machine `double` arithmetic is modelled by exact rationals `ℚ`;
* 3-vectors are `Fin 3 → ℚ`, 3x3 matrices are `Matrix (Fin 3) (Fin 3) ℚ`;
* every rotation stored by the model is the world-frame rotation matrix.
  An `sva::PTransformd::rotation()` stores the transpose of the world
  rotation, so the C++ `.transpose()` calls that merely convert between
  the two conventions disappear in the model, while the transposes that
  genuinely invert a rotation (such as `R1.transpose() * R2`) are kept;
* the external robot model (relative body/sensor/surface kinematics, the
  real robot's pose, the state-observation library's rotation based
  exponential/logarithm and its roll-pitch/yaw merging routine) is an
  explicit environment record `OdoEnv`: those routines live outside this
  repository and are treated as opaque function parameters;
* C++ exceptions are modelled with `Except`.
-/

namespace McStateObservation

open Matrix

/-- 3-vectors over `ℚ` (`Eigen::Vector3d`, `so::Vector3`). -/
abbrev V3 : Type := Fin 3 → ℚ

/-- 3x3 matrices over `ℚ` (`so::Matrix3`). -/
abbrev M3 : Type := Matrix (Fin 3) (Fin 3) ℚ

/-- Componentwise division of a vector by a scalar (`Eigen`'s `v / s`). -/
def vdiv (v : V3) (s : ℚ) : V3 := fun k => v k / s

/-- Sets the vertical coordinate of a vector to zero
(`worldRefKine_.position()(2) = 0.0`). -/
def setZeroZ (v : V3) : V3 := Function.update v 2 0

/-- In-place update of the element at index `i` of a list; identity when the
index is out of range.  Models a write through a C++ reference into the
contacts container. -/
def updateNth {α : Type} : List α → Nat → (α → α) → List α
  | [], _, _ => []
  | a :: l, 0, f => f a :: l
  | a :: l, n + 1, f => a :: updateNth l n f

/-- `leadsWith p l` is true when `p` is an initial segment of `l`. -/
def leadsWith : List Char → List Char → Bool
  | [], _ => true
  | _ :: _, [] => false
  | a :: p, b :: l => a = b && leadsWith p l

/-- `hasSubList p l` is true when `p` occurs contiguously inside `l`
(`std::string::find(p) != std::string::npos`). -/
def hasSubList (p : List Char) : List Char → Bool
  | [] => leadsWith p []
  | b :: l => leadsWith p (b :: l) || hasSubList p l

/-- `contact.getName().find("Hand") != std::string::npos`: the excluded
body-part name filter of `selectForOrientationOdometry`. -/
def nameHasHand (s : String) : Bool := hasSubList "Hand".toList s.toList

/-! ## Contact registry (`measurements/ContactsManager.h`) -/

/-- A registered contact as created by `ContactT(idx_, forceSensorName,
surface)` in `ContactsManager::addContactToManager`. -/
structure RegContact where
  id_ : Nat
  name_ : String
  surface_ : String
deriving DecidableEq

/-- The registry state of `ContactsManager`: the map `listContacts_`
(an association list keyed by the force-sensor name), the insertion order
list `insertOrder_` and the id generator `idx_`. -/
structure CMState where
  listContacts_ : List (String × RegContact)
  insertOrder_ : List String
  idx_ : Nat
deriving DecidableEq

/-- Lookup in the `listContacts_` map by contact name. -/
def lookupContact (m : List (String × RegContact)) (name : String) :
    Option RegContact :=
  (m.find? (fun p => p.1 == name)).map (fun p => p.2)

/-- `ContactsManager::addContactToManager(forceSensorName, surface)`:
inserts a freshly constructed contact under the sensor name; when the name
is already present the insertion fails and the existing contact is
returned, leaving `insertOrder_` and `idx_` untouched. -/
def addContactToManager (st : CMState) (forceSensorName surface : String) :
    CMState × RegContact :=
  match lookupContact st.listContacts_ forceSensorName with
  | some c => (st, c)
  | none =>
      let c : RegContact :=
        { id_ := st.idx_, name_ := forceSensorName, surface_ := surface }
      ({ listContacts_ := st.listContacts_ ++ [(forceSensorName, c)],
         insertOrder_ := st.insertOrder_ ++ [forceSensorName],
         idx_ := st.idx_ + 1 }, c)

/-! ## Contact detection mode (`ContactsManager::stringToContactsDetection`) -/

/-- The `ContactsDetection` enumeration of `ContactsManager`. -/
inductive ContactsDetection where
  | Solver
  | Surfaces
  | Sensors
  | Undefined
deriving DecidableEq

/-- The map `strToContactsDetection` of `ContactsManager.h`:
`{{"Solver", Solver}, {"Surfaces", Surfaces}, {"Sensors", Sensors},
{"Undefined", Undefined}}`. -/
def strToContactsDetection : List (String × ContactsDetection) :=
  [("Solver", .Solver), ("Surfaces", .Surfaces), ("Sensors", .Sensors),
   ("Undefined", .Undefined)]

/-- The error message thrown by `stringToContactsDetection`. -/
def contactsDetectionError : String :=
  "Contacts detection type not allowed. Please pick among : [Surfaces, Sensors, Solver] or initialize a list of surfaces with the variable surfacesForContactDetection"

/-- `ContactsManager::stringToContactsDetection`: throws when the string is
not a key of the map, otherwise returns the mapped enumeration value. -/
def stringToContactsDetection (str : String) :
    Except String ContactsDetection :=
  match strToContactsDetection.find? (fun p => p.1 == str) with
  | none => .error contactsDetectionError
  | some p => .ok p.2

/-- True on `Except.ok`. -/
def exceptOk {ε α : Type} : Except ε α → Bool
  | .ok _ => true
  | .error _ => false

/-! ## Contact classifier (`ContactsManager::updateContacts`) -/

/-- The three per-partition callbacks of `ContactsManager::updateContacts`. -/
inductive ContactEvent where
  | newContact
  | maintainedContact
  | removedContact
deriving DecidableEq

/-- Modelled from the spec: the body of `ContactsManager::updateContacts`
(the classifier) lives in `measurements/ContactsManager.hpp`, which is not
part of the sources; only its declaration and the sets `contactsFound_`,
`oldContacts_`, `removedContacts_` appear in `ContactsManager.h`.  Per the
spec, given the previous active set `P` and the new active set `N` it
computes the partitions `new = N \ P`, `maintained = N ∩ P`,
`removed = P \ N`. -/
def classifyContacts (P N : Finset ℕ) : Finset ℕ × Finset ℕ × Finset ℕ :=
  (N \ P, N ∩ P, P \ N)

/-- Modelled from the spec: `ContactsManager::updateContacts` invokes, in
order, the new-contact callback for each id in `new` (stable order given by
the registry insertion order `order`), the maintained-contact callback for
each id in `maintained`, and the removed-contact callback for each id in
`removed`.  The trace lists the callback invocations in invocation order. -/
def contactEventTrace (order : List ℕ) (P N : Finset ℕ) :
    List (ContactEvent × ℕ) :=
  (order.filter (fun i => decide (i ∈ N \ P))).map
      (fun i => (ContactEvent.newContact, i))
    ++ (order.filter (fun i => decide (i ∈ N ∩ P))).map
      (fun i => (ContactEvent.maintainedContact, i))
    ++ (order.filter (fun i => decide (i ∈ P \ N))).map
      (fun i => (ContactEvent.removedContact, i))

/-! ## Legged odometry data model (`leggedOdometryTools.h`) -/

/-- `LoContactWithSensor` of `leggedOdometryTools.h`: a contact enhanced
with its world reference kinematics, its orientation-eligibility flag, the
measured force norm and the currently estimated world orientation. -/
structure LoContactWithSensor where
  id_ : Nat
  name_ : String
  wasAlreadySet_ : Bool
  isSet_ : Bool
  useForOrientation_ : Bool
  forceNorm_ : ℚ
  worldRefKinePos : V3
  worldRefKineOri : M3
  currentWorldOrientation_ : M3
deriving DecidableEq

/-- Default contact used as the out-of-range fallback of list reads. -/
def dfltContact : LoContactWithSensor :=
  { id_ := 0, name_ := "", wasAlreadySet_ := false, isSet_ := false,
    useForOrientation_ := false, forceNorm_ := 0,
    worldRefKinePos := fun _ => 0, worldRefKineOri := 1,
    currentWorldOrientation_ := 1 }

/-- `{c with useForOrientation_ := b}`: the only write performed on a
contact by `selectForOrientationOdometry`. -/
def withFlag (b : Bool) (c : LoContactWithSensor) : LoContactWithSensor :=
  { c with useForOrientation_ := b }

/-- Erase the orientation-eligibility flag.  Two contacts with the same
`stripFlag` image agree on every field except `useForOrientation_`. -/
def stripFlag (c : LoContactWithSensor) : LoContactWithSensor :=
  { c with useForOrientation_ := false }

/-- The mutable state of one `LeggedOdometryManager` at the start of
`updateContacts`: the contacts container (indexed by contact index), the
index sets `contactsFound_` / `removedContacts_` computed by
`findContacts`, the force-ordered orientation candidate set
`oriOdometryContacts_`, the tracked pose `fbPose_` and the world pose of
the odometry robot (all rotations in world convention). -/
structure LOState where
  contacts : List LoContactWithSensor
  contactsFound : List Nat
  removedContacts : List Nat
  oriOdometryContacts : List Nat
  fbPos : V3
  fbRot : M3
  robotPos : V3
  robotRot : M3
deriving DecidableEq

/-- Read contact `i` of the container. -/
def getC (cs : List LoContactWithSensor) (i : Nat) : LoContactWithSensor :=
  cs.getD i dfltContact

/-- Everything the pipeline consumes from outside the repository during one
cycle: per-contact kinematics of the sensor parent body, of the sensor in
its parent body (`forceSensor.X_p_f()`), and of the associated surface, all
relative to the floating base (the joint configuration is frozen during the
cycle, so forward kinematics makes the world pose of each of these frames a
function of the floating-base pose); the force norm recomputed in the
surface frame by `getContactKinematics` (its `.norm()` involves a square
root and is treated as an external measurement); the real robot's world
orientation; and the state-observation library routines
`skewSymmetricToRotationVector`/`rotationVectorToAngleAxis`/`Orientation`
(together a rotation logarithm `rotLog` and exponential `rotExp`) and
`mergeRoll1Pitch1WithYaw2AxisAgnostic` (`mergeYaw`). -/
structure OdoEnv where
  detectionFromThreshold : Bool
  withNaiveYawEstimation : Bool
  odometry6d : Bool
  bodyRelPos : Nat → V3
  bodyRelOri : Nat → M3
  sensorRelPos : Nat → V3
  sensorRelOri : Nat → M3
  surfRelPos : Nat → V3
  surfRelOri : Nat → M3
  surfaceForceNorm : Nat → ℚ
  realRobotOri : M3
  rotLog : M3 → V3
  rotExp : V3 → M3
  mergeYaw : M3 → M3 → M3

/-- World position of the contact frame of contact `i` when the odometry
robot's floating base is at `(p, R)`: the sensor frame transported through
the parent body in threshold mode (`getContactKinematics`, threshold
branch, and `setNewContact`, threshold branch), the surface frame
otherwise. -/
def worldContactPos (env : OdoEnv) (p : V3) (R : M3) (i : Nat) : V3 :=
  if env.detectionFromThreshold then
    (p + R.mulVec (env.bodyRelPos i))
      + (R * env.bodyRelOri i).mulVec (env.sensorRelPos i)
  else p + R.mulVec (env.surfRelPos i)

/-- World orientation of the contact frame of contact `i` when the odometry
robot's floating base is at rotation `R` (world convention). -/
def worldContactOri (env : OdoEnv) (R : M3) (i : Nat) : M3 :=
  if env.detectionFromThreshold then R * env.bodyRelOri i * env.sensorRelOri i
  else R * env.surfRelOri i

/-- The force norm used by the fusion loop for maintained contact `i`: in
threshold mode the stored `forceNorm_`, in surface mode the value
recomputed by `getContactKinematics` in the surface frame. -/
def forceUsedC (env : OdoEnv) (cs : List LoContactWithSensor) (i : Nat) : ℚ :=
  if env.detectionFromThreshold then (getC cs i).forceNorm_
  else env.surfaceForceNorm i

/-- The per-contact floating-base position candidate
`setContact.worldRefKine_.position() + (worldFbPositionOdometryRobot -
worldContactKineOdometryRobot.position())`. -/
def candidateOf (env : OdoEnv) (rp : V3) (rR : M3)
    (cs : List LoContactWithSensor) (i : Nat) : V3 :=
  (getC cs i).worldRefKinePos + (rp - worldContactPos env rp rR i)

/-! ## Orientation candidate selection (`selectForOrientationOdometry`) -/

/-- Insertion into the force-ordered `std::set` `oriOdometryContacts_`
(comparator `sortByForce`: `contact1.forceNorm_ < contact2.forceNorm_`).
Following `std::set::insert`, an element equivalent to one already present
(equal force norm) is not inserted. -/
def insertByForce (f : Nat → ℚ) (i : Nat) : List Nat → List Nat
  | [] => [i]
  | j :: l =>
      if f i < f j then i :: j :: l
      else if f j < f i then j :: insertByForce f i l
      else j :: l

/-- The loop of `selectForOrientationOdometry` over `contactsFound()`: a
found contact whose name does not contain `"Hand"` gets
`useForOrientation_ = true` and is inserted into the candidate set. -/
def selectInsertLoop (cs : List LoContactWithSensor) (ori : List Nat) :
    List Nat → List LoContactWithSensor × List Nat
  | [] => (cs, ori)
  | i :: L =>
      if nameHasHand (getC cs i).name_ then selectInsertLoop cs ori L
      else
        selectInsertLoop (updateNth cs i (withFlag true))
          (insertByForce (fun j => (getC cs j).forceNorm_) i ori) L

/-- The eviction loop of `selectForOrientationOdometry`: while the set
holds more than two contacts, clear the eligibility flag of the
lowest-force element and erase it. -/
def evictList (cs : List LoContactWithSensor) :
    List Nat → List LoContactWithSensor × List Nat
  | [] => (cs, [])
  | i :: l =>
      if (i :: l).length ≤ 2 then (cs, i :: l)
      else evictList (updateNth cs i (withFlag false)) l

/-- `LeggedOdometryManager::selectForOrientationOdometry`. -/
def selectForOrientationOdometry (st : LOState) : LOState :=
  let p := selectInsertLoop st.contacts [] st.contactsFound
  let q := evictList p.1 p.2
  { st with contacts := q.1, oriOdometryContacts := q.2 }

/-- The contacts eligible for the orientation odometry this cycle: found
contacts whose name does not contain `"Hand"`. -/
def eligOf (st : LOState) : List Nat :=
  st.contactsFound.filter (fun i => !nameHasHand (getC st.contacts i).name_)

/-- The force norm of contact `i` as stored in the container `cs`: the key
the candidate set is ordered by. -/
def forceOf (cs : List LoContactWithSensor) : Nat → ℚ :=
  fun j => (getC cs j).forceNorm_

/-- Repeated insertion into the force-ordered candidate set. -/
def insertFold (f : Nat → ℚ) (L : List Nat) (ori : List Nat) : List Nat :=
  L.foldl (fun o i => insertByForce f i o) ori

/-- Clearing the orientation-eligibility flag of every contact in `T`:
the accumulated effect of the eviction loop on the contacts container. -/
def clearList (cs : List LoContactWithSensor) (T : List Nat) :
    List LoContactWithSensor :=
  T.foldl (fun c i => updateNth c i (withFlag false)) cs

/-! ## Pose fusion loop (`updateContacts`, first loop) -/

/-- The accumulators of the first loop of `updateContacts`:
`sumForces_position`, `sumForces_orientation`, `totalFbPosition`,
`positionUpdatable`, `orientationUpdatable` and the (mutated) contacts
container. -/
structure FusionAcc where
  sumForcesPosition : ℚ
  sumForcesOrientation : ℚ
  totalFbPosition : V3
  positionUpdatable : Bool
  orientationUpdatable : Bool
  contacts : List LoContactWithSensor
deriving DecidableEq

/-- One iteration of the first loop of `updateContacts` for found contact
`i` (the odometry robot pose `(rp, rR)` is not modified inside the loop):
a contact with `wasAlreadySet_` contributes its candidate position weighted
by its force (recomputed in the surface frame when the detection is not
threshold based), and, when `withNaiveYawEstimation_` is on and the contact
is orientation-eligible, its world orientation candidate
`worldRefKine_.orientation * worldContactKine.orientation⁻¹ * robot
orientation` is stored and its force added to `sumForces_orientation`. -/
def fusionStep (env : OdoEnv) (rp : V3) (rR : M3) (a : FusionAcc) (i : Nat) :
    FusionAcc :=
  let c := getC a.contacts i
  if c.wasAlreadySet_ then
    let c1 := if env.detectionFromThreshold then c
      else { c with forceNorm_ := env.surfaceForceNorm i }
    let cand := c1.worldRefKinePos + (rp - worldContactPos env rp rR i)
    let a1 : FusionAcc :=
      { a with
        positionUpdatable := true,
        sumForcesPosition := a.sumForcesPosition + c1.forceNorm_,
        totalFbPosition := a.totalFbPosition + c1.forceNorm_ • cand }
    if env.withNaiveYawEstimation && c1.useForOrientation_ then
      let c2 := { c1 with
        currentWorldOrientation_ :=
          c1.worldRefKineOri * (worldContactOri env rR i)ᵀ * rR }
      { a1 with
        orientationUpdatable := true,
        sumForcesOrientation := a1.sumForcesOrientation + c1.forceNorm_,
        contacts := updateNth a1.contacts i (fun _ => c2) }
    else { a1 with contacts := updateNth a1.contacts i (fun _ => c1) }
  else a

/-- The update applied to a maintained contact by one pass of the first
loop, as a function of the contacts container it is read from. -/
def fusionContactUpdate (env : OdoEnv) (rR : M3)
    (cs : List LoContactWithSensor) (i : Nat) : LoContactWithSensor :=
  let c := getC cs i
  if c.wasAlreadySet_ then
    let c1 := if env.detectionFromThreshold then c
      else { c with forceNorm_ := env.surfaceForceNorm i }
    if env.withNaiveYawEstimation && c1.useForOrientation_ then
      { c1 with
        currentWorldOrientation_ :=
          c1.worldRefKineOri * (worldContactOri env rR i)ᵀ * rR }
    else c1
  else c

/-- The whole first loop of `updateContacts`, run on the state produced by
`selectForOrientationOdometry`. -/
def runFusionLoop (env : OdoEnv) (st : LOState) : FusionAcc :=
  st.contactsFound.foldl (fusionStep env st.robotPos st.robotRot)
    { sumForcesPosition := 0, sumForcesOrientation := 0,
      totalFbPosition := 0, positionUpdatable := false,
      orientationUpdatable := false, contacts := st.contacts }

/-- The fusion accumulator obtained after `selectForOrientationOdometry`
and the first loop of `updateContacts`. -/
def fusionOut (env : OdoEnv) (st : LOState) : FusionAcc :=
  runFusionLoop env (selectForOrientationOdometry st)

/-- The found contacts that were already set on the previous iteration
(`wasAlreadySet_`): the ones the pose is estimated from. -/
def maintainedFound (st : LOState) : List Nat :=
  st.contactsFound.filter (fun i => (getC st.contacts i).wasAlreadySet_)

/-- `sumForces_position` as the spec states it: the sum of the maintained
contacts' force norms. -/
def sumForcesPositionSpec (env : OdoEnv) (st : LOState) : ℚ :=
  ((maintainedFound st).map (forceUsedC env st.contacts)).sum

/-- `totalFbPosition` as the spec states it: the force-weighted sum of the
per-contact floating-base position candidates. -/
def totalFbPositionSpec (env : OdoEnv) (st : LOState) : V3 :=
  ((maintainedFound st).map
    (fun i => forceUsedC env st.contacts i
      • candidateOf env st.robotPos st.robotRot st.contacts i)).sum

/-- The floating-base position after the fusion step: the force-weighted
mean when at least one maintained contact exists, the previous estimate
otherwise. -/
def fbPosNext (env : OdoEnv) (st : LOState) : V3 :=
  let a := fusionOut env st
  if a.positionUpdatable then vdiv a.totalFbPosition a.sumForcesPosition
  else st.fbPos

/-- The weighting coefficient `u = contact1.forceNorm_ /
sumForces_orientation` of the two-candidate orientation branch
(`contact1` is the first element of the force-ordered candidate set). -/
def twoContactsU (env : OdoEnv) (st : LOState) : ℚ :=
  let a := fusionOut env st
  match (selectForOrientationOdometry st).oriOdometryContacts with
  | [c1, _] => (getC a.contacts c1).forceNorm_ / a.sumForcesOrientation
  | _ => 0

/-- The two-candidate orientation blend `meanOri = R1 * exp((1 - u) *
log(R1ᵀ * R2))` computed by `updateContacts`. -/
def twoContactsBlend (env : OdoEnv) (st : LOState) (c1 c2 : Nat) : M3 :=
  let a := fusionOut env st
  let R1 := (getC a.contacts c1).currentWorldOrientation_
  let R2 := (getC a.contacts c2).currentWorldOrientation_
  R1 * env.rotExp ((1 - twoContactsU env st) • env.rotLog (R1ᵀ * R2))

/-- The floating-base orientation (world convention) after the fusion
step: updated only when both the position and the orientation are
updatable, by merging the single- or two-candidate orientation with the
real robot's tilt. -/
def fbRotNext (env : OdoEnv) (st : LOState) : M3 :=
  let a := fusionOut env st
  if a.positionUpdatable && a.orientationUpdatable then
    match (selectForOrientationOdometry st).oriOdometryContacts with
    | [c1] =>
        env.mergeYaw env.realRobotOri
          (getC a.contacts c1).currentWorldOrientation_
    | [c1, c2] => env.mergeYaw env.realRobotOri (twoContactsBlend env st c1 c2)
    | _ => st.fbRot
  else st.fbRot

/-! ## New contacts (`setNewContact` and the second loop) -/

/-- The reference position computed by `setNewContact` when the odometry
robot's floating base is at `(p, R)`: the world contact frame position,
with the height forced to zero when the odometry is flat (not 6D). -/
def setNewContactRefPos (env : OdoEnv) (p : V3) (R : M3) (i : Nat) : V3 :=
  let raw := worldContactPos env p R i
  if env.odometry6d then raw else setZeroZ raw

/-- The reference orientation computed by `setNewContact` when the odometry
robot's floating base is at rotation `R`. -/
def setNewContactRefOri (env : OdoEnv) (R : M3) (i : Nat) : M3 :=
  worldContactOri env R i

/-- The write performed on a freshly found contact by the second loop of
`updateContacts`: `isSet_ = true` followed by `setNewContact`. -/
def setNewContactAt (env : OdoEnv) (p : V3) (R : M3) (i : Nat)
    (c : LoContactWithSensor) : LoContactWithSensor :=
  { c with
    isSet_ := true,
    worldRefKinePos := setNewContactRefPos env p R i,
    worldRefKineOri := setNewContactRefOri env R i }

/-- One iteration of the second loop of `updateContacts` for found contact
`i`: contacts not yet set get their reference kinematics computed from the
odometry robot, whose pose `(p, R)` was set to the fused `fbPose_` (and its
forward kinematics recomputed) just before this loop. -/
def newContactStep (env : OdoEnv) (p : V3) (R : M3)
    (cs : List LoContactWithSensor) (i : Nat) : List LoContactWithSensor :=
  if (getC cs i).wasAlreadySet_ then cs
  else updateNth cs i (setNewContactAt env p R i)

/-- `LeggedOdometryManager::updateContacts`: contact selection, pose
fusion, write-back of the fused pose into the odometry robot, and reference
kinematics computation for the newly set contacts.  (The log-entry
registration/removal side effects carry no estimation state and are not
modelled.) -/
def updateContacts (env : OdoEnv) (st : LOState) : LOState :=
  let s := selectForOrientationOdometry st
  let a := fusionOut env st
  let p := fbPosNext env st
  let R := fbRotNext env st
  { s with
    contacts := st.contactsFound.foldl (newContactStep env p R) a.contacts,
    fbPos := p,
    fbRot := R,
    robotPos := p,
    robotRot := R }

/-- The spec's geodesic midpoint of two rotations, written with the same
external rotation exponential/logarithm: `R1 * exp((1/2) * log(R1ᵀ * R2))`.
Stated from the spec's words for comparison with `twoContactsBlend`. -/
def geodesicMidpoint (env : OdoEnv) (R1 R2 : M3) : M3 :=
  R1 * env.rotExp (((1 : ℚ) / 2) • env.rotLog (R1ᵀ * R2))

/-! ## Concrete cycle fixtures used by the witnesses and counterexamples -/

/-- The zero vector. -/
def v0 : V3 := fun _ => 0

/-- A trivial environment for concrete cycles: threshold-based detection,
orientation estimation off, 6D odometry, all external kinematics at the
identity, trivial rotation exponential/logarithm and a yaw-merge returning
its second argument. -/
def envW : OdoEnv :=
  { detectionFromThreshold := true, withNaiveYawEstimation := false,
    odometry6d := true,
    bodyRelPos := fun _ => v0, bodyRelOri := fun _ => 1,
    sensorRelPos := fun _ => v0, sensorRelOri := fun _ => 1,
    surfRelPos := fun _ => v0, surfRelOri := fun _ => 1,
    surfaceForceNorm := fun _ => 0, realRobotOri := 1,
    rotLog := fun _ => v0, rotExp := fun _ => 1,
    mergeYaw := fun _ m => m }

/-- A contact fixture. -/
def mkContact (id : Nat) (name : String) (was : Bool) (force : ℚ)
    (refPos : V3) : LoContactWithSensor :=
  { id_ := id, name_ := name, wasAlreadySet_ := was, isSet_ := was,
    useForOrientation_ := false, forceNorm_ := force,
    worldRefKinePos := refPos, worldRefKineOri := 1,
    currentWorldOrientation_ := 1 }

/-- Two maintained foot contacts with equal forces. -/
def stC1 : LOState :=
  { contacts :=
      [mkContact 0 "RightFootForceSensor" true 2 (fun k => if k = 0 then 4 else 0),
       mkContact 1 "LeftFootForceSensor" true 2 (fun k => if k = 1 then 8 else 0)],
    contactsFound := [0, 1], removedContacts := [], oriOdometryContacts := [],
    fbPos := v0, fbRot := 1, robotPos := v0, robotRot := 1 }

/-- One found contact, freshly activated (no maintained contact). -/
def stC3 : LOState :=
  { contacts := [mkContact 0 "RightFootForceSensor" false 1 v0],
    contactsFound := [0], removedContacts := [], oriOdometryContacts := [],
    fbPos := fun k => if k = 0 then 5 else 0, fbRot := 1,
    robotPos := v0, robotRot := 1 }

/-- Five maintained non-hand contacts with pairwise distinct forces. -/
def stC4 : LOState :=
  { contacts :=
      [mkContact 0 "FootA" true 1 v0, mkContact 1 "FootB" true 2 v0,
       mkContact 2 "FootC" true 3 v0, mkContact 3 "FootD" true 4 v0,
       mkContact 4 "FootE" true 5 v0],
    contactsFound := [0, 1, 2, 3, 4], removedContacts := [],
    oriOdometryContacts := [], fbPos := v0, fbRot := 1,
    robotPos := v0, robotRot := 1 }

/-- A single freshly activated non-hand contact. -/
def stC5 : LOState :=
  { contacts := [mkContact 0 "LeftFoot" false 1 v0],
    contactsFound := [0], removedContacts := [], oriOdometryContacts := [],
    fbPos := v0, fbRot := 1, robotPos := v0, robotRot := 1 }

/-- A matrix equal to the identity except for its top-left entry `q`:
a concrete one-parameter family used to instantiate the external rotation
exponential so that different rotation-vector arguments are observable. -/
def mE (q : ℚ) : M3 :=
  Matrix.of (fun i j => if i = 0 ∧ j = 0 then q else if i = j then 1 else 0)

/-- Environment with orientation estimation on and concrete (injective
enough) stand-ins for the external rotation logarithm/exponential. -/
def envC2x : OdoEnv :=
  { envW with
    withNaiveYawEstimation := true,
    rotLog := fun M => (fun _ => M 0 0),
    rotExp := fun v => mE (v 0) }

/-- A maintained contact (force 2) together with a freshly activated one
(force 1), both eligible for the orientation odometry: the candidate set
holds two contacts of which only one is maintained. -/
def stC2x : LOState :=
  { contacts :=
      [{ mkContact 0 "RightFootForceSensor" true 2 v0 with worldRefKineOri := mE 6 },
       mkContact 1 "LeftFootForceSensor" false 1 v0],
    contactsFound := [0, 1], removedContacts := [], oriOdometryContacts := [],
    fbPos := v0, fbRot := 1, robotPos := v0, robotRot := 1 }

/-- The first contact of `stC2x` as it stands after the selection loop. -/
def cC2a : LoContactWithSensor :=
  { id_ := 0, name_ := "RightFootForceSensor", wasAlreadySet_ := true,
    isSet_ := true, useForOrientation_ := true, forceNorm_ := 2,
    worldRefKinePos := v0, worldRefKineOri := mE 6,
    currentWorldOrientation_ := 1 }

/-- The second contact of `stC2x` as it stands after the selection loop. -/
def cC2b : LoContactWithSensor :=
  { id_ := 1, name_ := "LeftFootForceSensor", wasAlreadySet_ := false,
    isSet_ := false, useForOrientation_ := true, forceNorm_ := 1,
    worldRefKinePos := v0, worldRefKineOri := 1,
    currentWorldOrientation_ := 1 }

/-- `stC2x` after `selectForOrientationOdometry`. -/
def stC2xSel : LOState :=
  { stC2x with contacts := [cC2a, cC2b], oriOdometryContacts := [1, 0] }

/-- The fusion accumulator reached from `stC2x`: only the maintained
contact contributes, so `sumForces_orientation = 2` even though the
candidate set holds two contacts with forces 1 and 2. -/
def accC2x : FusionAcc :=
  { sumForcesPosition := 2, sumForcesOrientation := 2, totalFbPosition := 0,
    positionUpdatable := true, orientationUpdatable := true,
    contacts := [{ cC2a with currentWorldOrientation_ := mE 6 }, cC2b] }

/-- Environment with orientation estimation on and trivial external
rotation routines (in particular `rotExp 0 = 1`). -/
def envC2w : OdoEnv := { envW with withNaiveYawEstimation := true }

/-- Two maintained orientation-eligible contacts with forces 2 and 1. -/
def stC2w : LOState :=
  { contacts :=
      [mkContact 0 "RightFootForceSensor" true 2 v0,
       mkContact 1 "LeftFootForceSensor" true 1 v0],
    contactsFound := [0, 1], removedContacts := [], oriOdometryContacts := [],
    fbPos := v0, fbRot := 1, robotPos := v0, robotRot := 1 }

/-- Flat-odometry environment. -/
def envC7 : OdoEnv := { envW with odometry6d := false }

/-- A maintained contact anchored away from the origin plus a freshly
activated contact whose sensed frame sits at nonzero height. -/
def stC7 : LOState :=
  { contacts :=
      [mkContact 0 "RightFootForceSensor" true 2 (fun k => if k = 0 then 3 else 0),
       mkContact 1 "LeftFootForceSensor" false 1 v0],
    contactsFound := [0, 1], removedContacts := [], oriOdometryContacts := [],
    fbPos := v0, fbRot := 1, robotPos := v0,
    robotRot := 1 }

/-- Flat-odometry environment whose sensor frame sits at height 5. -/
def envC7h : OdoEnv :=
  { envC7 with sensorRelPos := fun _ => (fun k => if k = 2 then 5 else 0) }

/-- A maintained contact displacing the fused pose plus a freshly
activated contact, to observe the pose used by `setNewContact`. -/
def stC10 : LOState :=
  { contacts :=
      [mkContact 0 "RightFootForceSensor" true 2 (fun k => if k = 0 then 3 else 0),
       mkContact 1 "LeftFootForceSensor" false 1 v0],
    contactsFound := [0, 1], removedContacts := [], oriOdometryContacts := [],
    fbPos := v0, fbRot := 1, robotPos := v0, robotRot := 1 }

/-- The empty contact registry. -/
def stReg0 : CMState := { listContacts_ := [], insertOrder_ := [], idx_ := 0 }

/-! ## Helper lemmas: container reads and writes -/

theorem updateNth_length {α : Type} (l : List α) (i : Nat) (f : α → α) :
    (updateNth l i f).length = l.length := by
  induction l generalizing i with
  | nil => rfl
  | cons a t ih =>
      cases i with
      | zero => rfl
      | succ n => simpa [updateNth] using ih n

theorem updateNth_oob {α : Type} (l : List α) (i : Nat) (f : α → α)
    (h : l.length ≤ i) : updateNth l i f = l := by
  induction l generalizing i with
  | nil => rfl
  | cons a t ih =>
      cases i with
      | zero => exact absurd h (by simp)
      | succ n =>
          simp only [updateNth, List.cons.injEq, true_and]
          exact ih n (by simpa using h)

theorem getC_updateNth_ne (cs : List LoContactWithSensor) (i j : Nat)
    (f : LoContactWithSensor → LoContactWithSensor) (h : j ≠ i) :
    getC (updateNth cs i f) j = getC cs j := by
  induction cs generalizing i j with
  | nil => rfl
  | cons a t ih =>
      cases i with
      | zero =>
          cases j with
          | zero => exact absurd rfl h
          | succ m => rfl
      | succ n =>
          cases j with
          | zero => rfl
          | succ m =>
              simp only [getC, updateNth, List.getD_cons_succ]
              exact ih n m (fun hh => h (by rw [hh]))

theorem getC_updateNth_self (cs : List LoContactWithSensor) (i : Nat)
    (f : LoContactWithSensor → LoContactWithSensor) (h : i < cs.length) :
    getC (updateNth cs i f) i = f (getC cs i) := by
  induction cs generalizing i with
  | nil => simp at h
  | cons a t ih =>
      cases i with
      | zero => rfl
      | succ n =>
          simp only [getC, updateNth, List.getD_cons_succ]
          exact ih n (by simpa using h)

theorem withFlag_forceNorm (b : Bool) (c : LoContactWithSensor) :
    (withFlag b c).forceNorm_ = c.forceNorm_ := rfl

theorem withFlag_name (b : Bool) (c : LoContactWithSensor) :
    (withFlag b c).name_ = c.name_ := rfl

theorem withFlag_was (b : Bool) (c : LoContactWithSensor) :
    (withFlag b c).wasAlreadySet_ = c.wasAlreadySet_ := rfl

theorem withFlag_flag (b : Bool) (c : LoContactWithSensor) :
    (withFlag b c).useForOrientation_ = b := rfl

theorem stripFlag_withFlag (b : Bool) (c : LoContactWithSensor) :
    stripFlag (withFlag b c) = stripFlag c := rfl

theorem dflt_flag_false : dfltContact.useForOrientation_ = false := rfl

/-- Two contacts with the same `stripFlag` image agree on every field
except the orientation-eligibility flag. -/
theorem stripFlag_eq_proj {c c' : LoContactWithSensor}
    (h : stripFlag c = stripFlag c') :
    c.wasAlreadySet_ = c'.wasAlreadySet_ ∧ c.forceNorm_ = c'.forceNorm_
    ∧ c.name_ = c'.name_ ∧ c.worldRefKinePos = c'.worldRefKinePos
    ∧ c.worldRefKineOri = c'.worldRefKineOri
    ∧ c.currentWorldOrientation_ = c'.currentWorldOrientation_
    ∧ c.isSet_ = c'.isSet_ ∧ c.id_ = c'.id_ :=
  ⟨congrArg (fun x => x.wasAlreadySet_) h, congrArg (fun x => x.forceNorm_) h,
   congrArg (fun x => x.name_) h, congrArg (fun x => x.worldRefKinePos) h,
   congrArg (fun x => x.worldRefKineOri) h,
   congrArg (fun x => x.currentWorldOrientation_) h,
   congrArg (fun x => x.isSet_) h, congrArg (fun x => x.id_) h⟩

/-! ## Helper lemmas: the selection loop only writes eligibility flags -/

theorem forceOf_updateNth_withFlag (cs : List LoContactWithSensor) (i : Nat)
    (b : Bool) : forceOf (updateNth cs i (withFlag b)) = forceOf cs := by
  funext j
  by_cases hj : j = i
  · subst hj
    by_cases hr : j < cs.length
    · rw [forceOf, forceOf, getC_updateNth_self _ _ _ hr, withFlag_forceNorm]
    · rw [forceOf, updateNth_oob _ _ _ (by omega)]; rfl
  · rw [forceOf, forceOf, getC_updateNth_ne _ _ _ _ hj]

theorem name_updateNth_withFlag (cs : List LoContactWithSensor) (i j : Nat)
    (b : Bool) :
    (getC (updateNth cs i (withFlag b)) j).name_ = (getC cs j).name_ := by
  by_cases hj : j = i
  · subst hj
    by_cases hr : j < cs.length
    · rw [getC_updateNth_self _ _ _ hr, withFlag_name]
    · rw [updateNth_oob _ _ _ (by omega)]
  · rw [getC_updateNth_ne _ _ _ _ hj]

theorem flag_updateNth_withFlag_true (cs : List LoContactWithSensor)
    (i j : Nat)
    (h : (getC cs j).useForOrientation_ = true) :
    (getC (updateNth cs i (withFlag true)) j).useForOrientation_ = true := by
  by_cases hj : j = i
  · subst hj
    by_cases hr : j < cs.length
    · rw [getC_updateNth_self _ _ _ hr, withFlag_flag]
    · rw [updateNth_oob _ _ _ (by omega)]; exact h
  · rw [getC_updateNth_ne _ _ _ _ hj]; exact h

/-! ## Helper lemmas: the force-ordered candidate set -/

theorem mem_insertByForce (f : Nat → ℚ) (i x : Nat) (l : List Nat)
    (h : x ∈ insertByForce f i l) : x = i ∨ x ∈ l := by
  induction l with
  | nil => simpa [insertByForce] using h
  | cons j t ih =>
      rw [insertByForce] at h
      by_cases h1 : f i < f j
      · rw [if_pos h1] at h
        rcases List.mem_cons.1 h with rfl | h2
        · exact Or.inl rfl
        · exact Or.inr h2
      · rw [if_neg h1] at h
        by_cases h2 : f j < f i
        · rw [if_pos h2] at h
          rcases List.mem_cons.1 h with rfl | h3
          · exact Or.inr (List.mem_cons_self _ _)
          · rcases ih h3 with rfl | h4
            · exact Or.inl rfl
            · exact Or.inr (List.mem_cons_of_mem _ h4)
        · rw [if_neg h2] at h
          exact Or.inr h

theorem pairwise_insertByForce (f : Nat → ℚ) (i : Nat) (l : List Nat)
    (h : l.Pairwise (fun a b => f a < f b)) :
    (insertByForce f i l).Pairwise (fun a b => f a < f b) := by
  induction l with
  | nil => simp [insertByForce]
  | cons j t ih =>
      rw [insertByForce]
      rcases List.pairwise_cons.1 h with ⟨hj, ht⟩
      by_cases h1 : f i < f j
      · rw [if_pos h1]
        refine List.pairwise_cons.2 ⟨?_, h⟩
        intro b hb
        rcases List.mem_cons.1 hb with rfl | hbt
        · exact h1
        · exact lt_trans h1 (hj b hbt)
      · rw [if_neg h1]
        by_cases h2 : f j < f i
        · rw [if_pos h2]
          refine List.pairwise_cons.2 ⟨?_, ih ht⟩
          intro b hb
          rcases mem_insertByForce f i b t hb with rfl | hbt
          · exact h2
          · exact hj b hbt
        · rw [if_neg h2]; exact h

theorem insertByForce_perm (f : Nat → ℚ) (i : Nat) (l : List Nat)
    (h : ∀ j ∈ l, f i ≠ f j) :
    (insertByForce f i l).Perm (i :: l) := by
  induction l with
  | nil => simp [insertByForce]
  | cons j t ih =>
      rw [insertByForce]
      by_cases h1 : f i < f j
      · rw [if_pos h1]
      · have h2 : f j < f i :=
          lt_of_le_of_ne (le_of_not_lt h1) (h j (List.mem_cons_self _ _)).symm
        rw [if_neg h1, if_pos h2]
        have ht : (insertByForce f i t).Perm (i :: t) :=
          ih (fun a ha => h a (List.mem_cons_of_mem _ ha))
        exact (ht.cons j).trans (List.Perm.swap i j t)

theorem insertFold_nil (f : Nat → ℚ) (ori : List Nat) :
    insertFold f [] ori = ori := rfl

theorem insertFold_cons (f : Nat → ℚ) (i : Nat) (T ori : List Nat) :
    insertFold f (i :: T) ori = insertFold f T (insertByForce f i ori) := rfl

theorem mem_insertFold (f : Nat → ℚ) (x : Nat) (L : List Nat) :
    ∀ ori, x ∈ insertFold f L ori → x ∈ L ∨ x ∈ ori := by
  induction L with
  | nil => intro ori h; exact Or.inr h
  | cons i T ih =>
      intro ori h
      rw [insertFold_cons] at h
      rcases ih _ h with hT | hori
      · exact Or.inl (List.mem_cons_of_mem _ hT)
      · rcases mem_insertByForce f i x ori hori with rfl | h2
        · exact Or.inl (List.mem_cons_self _ _)
        · exact Or.inr h2

theorem pairwise_insertFold (f : Nat → ℚ) (L : List Nat) :
    ∀ ori, ori.Pairwise (fun a b => f a < f b) →
      (insertFold f L ori).Pairwise (fun a b => f a < f b) := by
  induction L with
  | nil => intro ori h; exact h
  | cons i T ih =>
      intro ori h
      rw [insertFold_cons]
      exact ih _ (pairwise_insertByForce f i ori h)

theorem insertFold_perm (f : Nat → ℚ) (L : List Nat) :
    ∀ ori, L.Nodup → (∀ a ∈ L, ∀ b ∈ L, a ≠ b → f a ≠ f b) →
      (∀ a ∈ L, ∀ b ∈ ori, f a ≠ f b) →
      (insertFold f L ori).Perm (L ++ ori) := by
  induction L with
  | nil => intro ori _ _ _; simp [insertFold_nil]
  | cons i T ih =>
      intro ori hnd hL hLo
      rw [insertFold_cons]
      have hiT : i ∉ T := (List.nodup_cons.1 hnd).1
      have hio : ∀ j ∈ ori, f i ≠ f j :=
        fun j hj => hLo i (List.mem_cons_self _ _) j hj
      have h2 : (insertByForce f i ori).Perm (i :: ori) :=
        insertByForce_perm f i ori hio
      have h1 : (insertFold f T (insertByForce f i ori)).Perm
          (T ++ insertByForce f i ori) := by
        refine ih _ (List.nodup_cons.1 hnd).2 ?_ ?_
        · intro a ha b hb hab
          exact hL a (List.mem_cons_of_mem _ ha) b (List.mem_cons_of_mem _ hb) hab
        · intro a ha b hb
          rcases mem_insertByForce f i b ori hb with rfl | hbo
          · exact hL a (List.mem_cons_of_mem _ ha) b (List.mem_cons_self _ _)
              (fun he => hiT (he ▸ ha))
          · exact hLo a (List.mem_cons_of_mem _ ha) b hbo
      exact h1.trans ((h2.append_left T).trans List.perm_middle)

/-! ## Helper lemmas: the insertion loop of the selection -/

theorem selectInsertLoop_fst_strip (L : List Nat) :
    ∀ (cs : List LoContactWithSensor) (ori : List Nat) (j : Nat),
      stripFlag (getC (selectInsertLoop cs ori L).1 j)
        = stripFlag (getC cs j) := by
  induction L with
  | nil => intro cs ori j; rfl
  | cons i L ih =>
      intro cs ori j
      rw [selectInsertLoop]
      by_cases hh : nameHasHand (getC cs i).name_ = true
      · rw [if_pos hh]; exact ih cs ori j
      · rw [if_neg hh]
        rw [ih _ _ j]
        by_cases hj : j = i
        · subst hj
          by_cases hr : j < cs.length
          · rw [getC_updateNth_self _ _ _ hr, stripFlag_withFlag]
          · rw [updateNth_oob _ _ _ (by omega)]
        · rw [getC_updateNth_ne _ _ _ _ hj]

theorem selectInsertLoop_snd (L : List Nat) :
    ∀ (cs : List LoContactWithSensor) (ori : List Nat),
      (selectInsertLoop cs ori L).2
        = insertFold (forceOf cs)
            (L.filter (fun i => !nameHasHand (getC cs i).name_)) ori := by
  induction L with
  | nil => intro cs ori; rfl
  | cons i L ih =>
      intro cs ori
      rw [selectInsertLoop]
      by_cases hh : nameHasHand (getC cs i).name_ = true
      · rw [if_pos hh]
        rw [ih cs ori]
        have : (i :: L).filter (fun k => !nameHasHand (getC cs k).name_)
            = L.filter (fun k => !nameHasHand (getC cs k).name_) := by
          rw [List.filter_cons]
          simp [hh]
        rw [this]
      · rw [if_neg hh]
        rw [ih _ _]
        have hf : forceOf (updateNth cs i (withFlag true)) = forceOf cs :=
          forceOf_updateNth_withFlag cs i true
        have hn : (L.filter
              (fun k => !nameHasHand (getC (updateNth cs i (withFlag true)) k).name_))
            = L.filter (fun k => !nameHasHand (getC cs k).name_) := by
          apply List.filter_congr
          intro k _
          rw [name_updateNth_withFlag]
        rw [hf, hn]
        have : (i :: L).filter (fun k => !nameHasHand (getC cs k).name_)
            = i :: L.filter (fun k => !nameHasHand (getC cs k).name_) := by
          rw [List.filter_cons]
          simp [hh]
        rw [this, insertFold_cons]
        have hfi : forceOf cs = fun j => (getC cs j).forceNorm_ := rfl
        rfl

theorem selectInsertLoop_flag_mono (L : List Nat) :
    ∀ (cs : List LoContactWithSensor) (ori : List Nat) (j : Nat),
      (getC cs j).useForOrientation_ = true →
      (getC (selectInsertLoop cs ori L).1 j).useForOrientation_ = true := by
  induction L with
  | nil => intro cs ori j h; exact h
  | cons i L ih =>
      intro cs ori j h
      rw [selectInsertLoop]
      by_cases hh : nameHasHand (getC cs i).name_ = true
      · rw [if_pos hh]; exact ih cs ori j h
      · rw [if_neg hh]
        exact ih _ _ j (flag_updateNth_withFlag_true cs i j h)

theorem selectInsertLoop_flag_true (L : List Nat) :
    ∀ (cs : List LoContactWithSensor) (ori : List Nat) (j : Nat),
      j ∈ L → nameHasHand (getC cs j).name_ = false → j < cs.length →
      (getC (selectInsertLoop cs ori L).1 j).useForOrientation_ = true := by
  induction L with
  | nil => intro cs ori j hj; exact absurd hj (List.not_mem_nil j)
  | cons i L ih =>
      intro cs ori j hj hname hr
      rw [selectInsertLoop]
      by_cases hji : j = i
      · subst hji
        rw [if_neg (by rw [hname]; exact Bool.false_ne_true)]
        apply selectInsertLoop_flag_mono
        rw [getC_updateNth_self _ _ _ hr, withFlag_flag]
      · have hjL : j ∈ L := by
          rcases List.mem_cons.1 hj with h | h
          · exact absurd h hji
          · exact h
        by_cases hh : nameHasHand (getC cs i).name_ = true
        · rw [if_pos hh]; exact ih cs ori j hjL hname hr
        · rw [if_neg hh]
          refine ih _ _ j hjL ?_ ?_
          · rw [name_updateNth_withFlag]; exact hname
          · rw [updateNth_length]; exact hr

/-! ## Helper lemmas: the eviction loop -/

theorem clearList_nil (cs : List LoContactWithSensor) : clearList cs [] = cs := rfl

theorem clearList_cons (cs : List LoContactWithSensor) (i : Nat) (T : List Nat) :
    clearList cs (i :: T) = clearList (updateNth cs i (withFlag false)) T := rfl

theorem clearList_strip (T : List Nat) :
    ∀ (cs : List LoContactWithSensor) (j : Nat),
      stripFlag (getC (clearList cs T) j) = stripFlag (getC cs j) := by
  induction T with
  | nil => intro cs j; rfl
  | cons i T ih =>
      intro cs j
      rw [clearList_cons, ih]
      by_cases hj : j = i
      · subst hj
        by_cases hr : j < cs.length
        · rw [getC_updateNth_self _ _ _ hr, stripFlag_withFlag]
        · rw [updateNth_oob _ _ _ (by omega)]
      · rw [getC_updateNth_ne _ _ _ _ hj]

theorem clearList_not_mem (T : List Nat) :
    ∀ (cs : List LoContactWithSensor) (j : Nat), j ∉ T →
      getC (clearList cs T) j = getC cs j := by
  induction T with
  | nil => intro cs j _; rfl
  | cons i T ih =>
      intro cs j hj
      rw [clearList_cons, ih _ _ (fun h => hj (List.mem_cons_of_mem _ h))]
      exact getC_updateNth_ne _ _ _ _ (fun h => hj (h ▸ List.mem_cons_self _ _))

theorem clearList_flag_false_pres (T : List Nat) :
    ∀ (cs : List LoContactWithSensor) (j : Nat),
      (getC cs j).useForOrientation_ = false →
      (getC (clearList cs T) j).useForOrientation_ = false := by
  induction T with
  | nil => intro cs j h; exact h
  | cons i T ih =>
      intro cs j h
      rw [clearList_cons]
      refine ih _ _ ?_
      by_cases hj : j = i
      · subst hj
        by_cases hr : j < cs.length
        · rw [getC_updateNth_self _ _ _ hr, withFlag_flag]
        · rw [updateNth_oob _ _ _ (by omega)]; exact h
      · rw [getC_updateNth_ne _ _ _ _ hj]; exact h

theorem clearList_flag_mem (T : List Nat) :
    ∀ (cs : List LoContactWithSensor) (j : Nat), j ∈ T →
      (getC (clearList cs T) j).useForOrientation_ = false := by
  induction T with
  | nil => intro cs j hj; exact absurd hj (List.not_mem_nil j)
  | cons i T ih =>
      intro cs j hj
      rw [clearList_cons]
      by_cases hji : j = i
      · subst hji
        refine clearList_flag_false_pres T _ j ?_
        by_cases hr : j < cs.length
        · rw [getC_updateNth_self _ _ _ hr, withFlag_flag]
        · rw [updateNth_oob _ _ _ (by omega)]
          have : getC cs j = dfltContact := List.getD_eq_default _ _ (by omega)
          rw [this]
          rfl
      · have hjT : j ∈ T := by
          rcases List.mem_cons.1 hj with h | h
          · exact absurd h hji
          · exact h
        exact ih _ _ hjT

theorem evictList_eq (l : List Nat) :
    ∀ (cs : List LoContactWithSensor),
      evictList cs l
        = (clearList cs (l.take (l.length - 2)), l.drop (l.length - 2)) := by
  induction l with
  | nil => intro cs; rfl
  | cons i t ih =>
      intro cs
      rw [evictList]
      by_cases h : (i :: t).length ≤ 2
      · rw [if_pos h]
        have h0 : (i :: t).length - 2 = 0 := by omega
        rw [h0]
        rfl
      · rw [if_neg h]
        rw [ih]
        have h2 : 2 ≤ t.length := by
          simp only [List.length_cons] at h; omega
        have h3 : (i :: t).length - 2 = (t.length - 2) + 1 := by
          simp only [List.length_cons]; omega
        rw [h3]
        rfl

/-! ## Facts about `selectForOrientationOdometry` -/

theorem select_contactsFound (st : LOState) :
    (selectForOrientationOdometry st).contactsFound = st.contactsFound := rfl

theorem select_robotPos (st : LOState) :
    (selectForOrientationOdometry st).robotPos = st.robotPos := rfl

theorem select_robotRot (st : LOState) :
    (selectForOrientationOdometry st).robotRot = st.robotRot := rfl

theorem select_fbPos (st : LOState) :
    (selectForOrientationOdometry st).fbPos = st.fbPos := rfl

theorem select_fbRot (st : LOState) :
    (selectForOrientationOdometry st).fbRot = st.fbRot := rfl

theorem select_contacts_eq (st : LOState) :
    (selectForOrientationOdometry st).contacts
      = clearList (selectInsertLoop st.contacts [] st.contactsFound).1
          ((selectInsertLoop st.contacts [] st.contactsFound).2.take
            ((selectInsertLoop st.contacts [] st.contactsFound).2.length - 2)) := by
  have h : (selectForOrientationOdometry st).contacts
      = (evictList (selectInsertLoop st.contacts [] st.contactsFound).1
          (selectInsertLoop st.contacts [] st.contactsFound).2).1 := rfl
  rw [h, evictList_eq]

theorem select_strip (st : LOState) (j : Nat) :
    stripFlag (getC (selectForOrientationOdometry st).contacts j)
      = stripFlag (getC st.contacts j) := by
  rw [select_contacts_eq, clearList_strip, selectInsertLoop_fst_strip]

theorem select_was (st : LOState) (j : Nat) :
    (getC (selectForOrientationOdometry st).contacts j).wasAlreadySet_
      = (getC st.contacts j).wasAlreadySet_ :=
  (stripFlag_eq_proj (select_strip st j)).1

theorem select_forceNorm (st : LOState) (j : Nat) :
    (getC (selectForOrientationOdometry st).contacts j).forceNorm_
      = (getC st.contacts j).forceNorm_ :=
  (stripFlag_eq_proj (select_strip st j)).2.1

theorem select_name (st : LOState) (j : Nat) :
    (getC (selectForOrientationOdometry st).contacts j).name_
      = (getC st.contacts j).name_ :=
  (stripFlag_eq_proj (select_strip st j)).2.2.1

theorem select_refPos (st : LOState) (j : Nat) :
    (getC (selectForOrientationOdometry st).contacts j).worldRefKinePos
      = (getC st.contacts j).worldRefKinePos :=
  (stripFlag_eq_proj (select_strip st j)).2.2.2.1

theorem select_refOri (st : LOState) (j : Nat) :
    (getC (selectForOrientationOdometry st).contacts j).worldRefKineOri
      = (getC st.contacts j).worldRefKineOri :=
  (stripFlag_eq_proj (select_strip st j)).2.2.2.2.1

theorem select_curOri (st : LOState) (j : Nat) :
    (getC (selectForOrientationOdometry st).contacts j).currentWorldOrientation_
      = (getC st.contacts j).currentWorldOrientation_ :=
  (stripFlag_eq_proj (select_strip st j)).2.2.2.2.2.1

theorem select_length (st : LOState) :
    (selectForOrientationOdometry st).contacts.length = st.contacts.length := by
  rw [select_contacts_eq]
  generalize (selectInsertLoop st.contacts [] st.contactsFound).2.take
    ((selectInsertLoop st.contacts [] st.contactsFound).2.length - 2) = T
  have h1 : ∀ (T : List Nat) (cs : List LoContactWithSensor),
      (clearList cs T).length = cs.length := by
    intro T
    induction T with
    | nil => intro cs; rfl
    | cons i T ih =>
        intro cs
        rw [clearList_cons, ih, updateNth_length]
  have h2 : ∀ (L : List Nat) (cs : List LoContactWithSensor) (ori : List Nat),
      (selectInsertLoop cs ori L).1.length = cs.length := by
    intro L
    induction L with
    | nil => intro cs ori; rfl
    | cons i L ih =>
        intro cs ori
        rw [selectInsertLoop]
        by_cases hh : nameHasHand (getC cs i).name_ = true
        · rw [if_pos hh]; exact ih cs ori
        · rw [if_neg hh]; rw [ih, updateNth_length]
  rw [h1, h2]

/-- The ordered orientation-candidate set produced by the selection: the
force-sorted insertion of the eligible contacts, with all but the last two
(highest-force) elements evicted. -/
theorem select_ori (st : LOState) :
    (selectForOrientationOdometry st).oriOdometryContacts
      = (insertFold (forceOf st.contacts) (eligOf st) []).drop
          ((insertFold (forceOf st.contacts) (eligOf st) []).length - 2) := by
  have h : (selectForOrientationOdometry st).oriOdometryContacts
      = (evictList (selectInsertLoop st.contacts [] st.contactsFound).1
          (selectInsertLoop st.contacts [] st.contactsFound).2).2 := rfl
  rw [h, evictList_eq, selectInsertLoop_snd]
  rfl

theorem select_ori_pairwise (st : LOState) :
    (selectForOrientationOdometry st).oriOdometryContacts.Pairwise
      (fun a b => forceOf st.contacts a < forceOf st.contacts b) := by
  rw [select_ori]
  exact List.Pairwise.sublist (List.drop_sublist _ _)
    (pairwise_insertFold _ _ _ List.Pairwise.nil)

theorem select_ori_nodup (st : LOState) :
    (insertFold (forceOf st.contacts) (eligOf st) []).Nodup :=
  (pairwise_insertFold _ _ _ List.Pairwise.nil).imp
    (fun hlt heq => absurd hlt (by rw [heq]; exact lt_irrefl _))

theorem select_ori_mem_elig (st : LOState) (j : Nat)
    (hj : j ∈ (selectForOrientationOdometry st).oriOdometryContacts) :
    j ∈ eligOf st := by
  rw [select_ori] at hj
  have h1 : j ∈ insertFold (forceOf st.contacts) (eligOf st) [] :=
    List.mem_of_mem_drop hj
  rcases mem_insertFold _ _ _ _ h1 with h | h
  · exact h
  · exact absurd h (List.not_mem_nil j)

theorem select_flag_mem_true (st : LOState) (j : Nat)
    (hj : j ∈ (selectForOrientationOdometry st).oriOdometryContacts)
    (hr : j < st.contacts.length) :
    (getC (selectForOrientationOdometry st).contacts j).useForOrientation_
      = true := by
  have helig : j ∈ eligOf st := select_ori_mem_elig st j hj
  have hfound : j ∈ st.contactsFound := List.mem_of_mem_filter helig
  have hname : nameHasHand (getC st.contacts j).name_ = false := by
    have := List.of_mem_filter helig
    simpa using this
  rw [select_contacts_eq]
  have hI : (selectInsertLoop st.contacts [] st.contactsFound).2
      = insertFold (forceOf st.contacts) (eligOf st) [] := by
    rw [selectInsertLoop_snd]; rfl
  rw [hI]
  set I := insertFold (forceOf st.contacts) (eligOf st) [] with hIdef
  have hjdrop : j ∈ I.drop (I.length - 2) := by
    rw [select_ori] at hj; exact hj
  have hnd : I.Nodup := select_ori_nodup st
  have hjtake : j ∉ I.take (I.length - 2) := by
    intro hmem
    have hsplit : I.take (I.length - 2) ++ I.drop (I.length - 2) = I :=
      List.take_append_drop _ _
    have : (I.take (I.length - 2) ++ I.drop (I.length - 2)).Nodup := by
      rw [hsplit]; exact hnd
    rcases List.nodup_append.1 this with ⟨_, _, hdisj⟩
    exact hdisj hmem hjdrop
  rw [clearList_not_mem _ _ _ hjtake]
  exact selectInsertLoop_flag_true _ _ _ _ hfound hname hr

/-! ## Helper lemmas: one pass of the fusion loop -/

theorem fusionStep_not_maintained (env : OdoEnv) (rp : V3) (rR : M3)
    (a : FusionAcc) (i : Nat)
    (h : (getC a.contacts i).wasAlreadySet_ = false) :
    fusionStep env rp rR a i = a := by
  simp [fusionStep, h]

theorem fusionStep_contacts_ne (env : OdoEnv) (rp : V3) (rR : M3)
    (a : FusionAcc) (i j : Nat) (hj : j ≠ i) :
    getC (fusionStep env rp rR a i).contacts j = getC a.contacts j := by
  by_cases hw : (getC a.contacts i).wasAlreadySet_ = true
  · by_cases hd : env.detectionFromThreshold = true
    · by_cases ho : (env.withNaiveYawEstimation
          && (getC a.contacts i).useForOrientation_) = true <;>
        simp [fusionStep, hw, hd, ho, getC_updateNth_ne _ _ _ _ hj]
    · by_cases ho : (env.withNaiveYawEstimation
          && (getC a.contacts i).useForOrientation_) = true <;>
        simp [fusionStep, hw, hd, ho, getC_updateNth_ne _ _ _ _ hj]
  · simp only [Bool.not_eq_true] at hw
    simp [fusionStep, hw]

theorem fusionStep_length (env : OdoEnv) (rp : V3) (rR : M3)
    (a : FusionAcc) (i : Nat) :
    (fusionStep env rp rR a i).contacts.length = a.contacts.length := by
  by_cases hw : (getC a.contacts i).wasAlreadySet_ = true
  · by_cases hd : env.detectionFromThreshold = true
    · by_cases ho : (env.withNaiveYawEstimation
          && (getC a.contacts i).useForOrientation_) = true <;>
        simp [fusionStep, hw, hd, ho, updateNth_length]
    · by_cases ho : (env.withNaiveYawEstimation
          && (getC a.contacts i).useForOrientation_) = true <;>
        simp [fusionStep, hw, hd, ho, updateNth_length]
  · simp only [Bool.not_eq_true] at hw
    simp [fusionStep, hw]

theorem fusionStep_contacts_self (env : OdoEnv) (rp : V3) (rR : M3)
    (a : FusionAcc) (i : Nat) (hr : i < a.contacts.length) :
    getC (fusionStep env rp rR a i).contacts i
      = fusionContactUpdate env rR a.contacts i := by
  by_cases hw : (getC a.contacts i).wasAlreadySet_ = true
  · by_cases hd : env.detectionFromThreshold = true
    · by_cases ho : (env.withNaiveYawEstimation
          && (getC a.contacts i).useForOrientation_) = true <;>
        simp [fusionStep, fusionContactUpdate, hw, hd, ho,
          getC_updateNth_self _ _ _ hr]
    · by_cases ho : (env.withNaiveYawEstimation
          && (getC a.contacts i).useForOrientation_) = true <;>
        simp [fusionStep, fusionContactUpdate, hw, hd, ho,
          getC_updateNth_self _ _ _ hr]
  · simp only [Bool.not_eq_true] at hw
    simp [fusionStep, fusionContactUpdate, hw]

theorem fusionStep_sums (env : OdoEnv) (rp : V3) (rR : M3)
    (a : FusionAcc) (i : Nat) :
    (fusionStep env rp rR a i).sumForcesPosition
      = a.sumForcesPosition
        + (if (getC a.contacts i).wasAlreadySet_ then forceUsedC env a.contacts i
           else 0)
  ∧ (fusionStep env rp rR a i).totalFbPosition
      = a.totalFbPosition
        + (if (getC a.contacts i).wasAlreadySet_ then
             forceUsedC env a.contacts i • candidateOf env rp rR a.contacts i
           else 0)
  ∧ (fusionStep env rp rR a i).positionUpdatable
      = (a.positionUpdatable || (getC a.contacts i).wasAlreadySet_)
  ∧ (fusionStep env rp rR a i).sumForcesOrientation
      = a.sumForcesOrientation
        + (if ((getC a.contacts i).wasAlreadySet_
              && (env.withNaiveYawEstimation
                  && (getC a.contacts i).useForOrientation_)) then
             forceUsedC env a.contacts i
           else 0)
  ∧ (fusionStep env rp rR a i).orientationUpdatable
      = (a.orientationUpdatable
         || ((getC a.contacts i).wasAlreadySet_
             && (env.withNaiveYawEstimation
                 && (getC a.contacts i).useForOrientation_))) := by
  by_cases hw : (getC a.contacts i).wasAlreadySet_ = true
  · by_cases hd : env.detectionFromThreshold = true
    · by_cases ho : (env.withNaiveYawEstimation
          && (getC a.contacts i).useForOrientation_) = true
      · simp [fusionStep, forceUsedC, candidateOf, hw, hd, ho]
      · simp [fusionStep, forceUsedC, candidateOf, hw, hd, ho]
    · by_cases ho : (env.withNaiveYawEstimation
          && (getC a.contacts i).useForOrientation_) = true
      · simp [fusionStep, forceUsedC, candidateOf, hw, hd, ho]
      · simp [fusionStep, forceUsedC, candidateOf, hw, hd, ho]
  · simp only [Bool.not_eq_true] at hw
    simp [fusionStep, hw]

/-! ## Helper lemmas: the whole fusion loop -/

theorem fusionContactUpdate_congr (env : OdoEnv) (rR : M3)
    (cs cs' : List LoContactWithSensor) (j : Nat)
    (h : getC cs j = getC cs' j) :
    fusionContactUpdate env rR cs j = fusionContactUpdate env rR cs' j := by
  simp only [fusionContactUpdate, h]

theorem fusionLoop_not_mem (env : OdoEnv) (rp : V3) (rR : M3) (L : List Nat) :
    ∀ (a : FusionAcc) (j : Nat), j ∉ L →
      getC (L.foldl (fusionStep env rp rR) a).contacts j = getC a.contacts j := by
  induction L with
  | nil => intro a j _; rfl
  | cons i L ih =>
      intro a j hj
      rw [List.foldl_cons, ih _ _ (fun h => hj (List.mem_cons_of_mem _ h))]
      exact fusionStep_contacts_ne env rp rR a i j
        (fun h => hj (h ▸ List.mem_cons_self _ _))

theorem fusionLoop_length (env : OdoEnv) (rp : V3) (rR : M3) (L : List Nat) :
    ∀ a : FusionAcc,
      (L.foldl (fusionStep env rp rR) a).contacts.length = a.contacts.length := by
  induction L with
  | nil => intro a; rfl
  | cons i L ih =>
      intro a
      rw [List.foldl_cons, ih, fusionStep_length]

theorem fusionLoop_mem (env : OdoEnv) (rp : V3) (rR : M3) (L : List Nat) :
    ∀ (a : FusionAcc) (j : Nat), L.Nodup →
      (∀ k ∈ L, k < a.contacts.length) → j ∈ L →
      getC (L.foldl (fusionStep env rp rR) a).contacts j
        = fusionContactUpdate env rR a.contacts j := by
  induction L with
  | nil => intro a j _ _ hj; exact absurd hj (List.not_mem_nil j)
  | cons i L ih =>
      intro a j hnd hv hj
      rw [List.foldl_cons]
      rcases List.mem_cons.1 hj with rfl | hjL
      · have hiL : j ∉ L := (List.nodup_cons.1 hnd).1
        rw [fusionLoop_not_mem env rp rR L _ j hiL]
        exact fusionStep_contacts_self env rp rR a j (hv j (List.mem_cons_self _ _))
      · have hji : j ≠ i := by
          intro h; subst h; exact (List.nodup_cons.1 hnd).1 hjL
        rw [ih _ j (List.nodup_cons.1 hnd).2
          (fun k hk => by
            rw [fusionStep_length]; exact hv k (List.mem_cons_of_mem _ hk)) hjL]
        exact fusionContactUpdate_congr env rR _ _ j
          (fusionStep_contacts_ne env rp rR a i j hji)

theorem fusionLoop_sums (env : OdoEnv) (rp : V3) (rR : M3) (L : List Nat) :
    ∀ a : FusionAcc, L.Nodup →
      ((L.foldl (fusionStep env rp rR) a).sumForcesPosition
        = a.sumForcesPosition
          + ((L.filter (fun k => (getC a.contacts k).wasAlreadySet_)).map
              (fun k => forceUsedC env a.contacts k)).sum)
    ∧ ((L.foldl (fusionStep env rp rR) a).totalFbPosition
        = a.totalFbPosition
          + ((L.filter (fun k => (getC a.contacts k).wasAlreadySet_)).map
              (fun k => forceUsedC env a.contacts k
                • candidateOf env rp rR a.contacts k)).sum)
    ∧ ((L.foldl (fusionStep env rp rR) a).positionUpdatable
        = (a.positionUpdatable
           || !(L.filter (fun k => (getC a.contacts k).wasAlreadySet_)).isEmpty))
    ∧ ((L.foldl (fusionStep env rp rR) a).sumForcesOrientation
        = a.sumForcesOrientation
          + ((L.filter (fun k => (getC a.contacts k).wasAlreadySet_
                && (env.withNaiveYawEstimation
                    && (getC a.contacts k).useForOrientation_))).map
              (fun k => forceUsedC env a.contacts k)).sum)
    ∧ ((L.foldl (fusionStep env rp rR) a).orientationUpdatable
        = (a.orientationUpdatable
           || !(L.filter (fun k => (getC a.contacts k).wasAlreadySet_
                && (env.withNaiveYawEstimation
                    && (getC a.contacts k).useForOrientation_))).isEmpty)) := by
  induction L with
  | nil =>
      intro a _
      refine ⟨?_, ?_, ?_, ?_, ?_⟩ <;> simp
  | cons i L ih =>
      intro a hnd
      have hiL : i ∉ L := (List.nodup_cons.1 hnd).1
      have hne : ∀ k ∈ L, getC (fusionStep env rp rR a i).contacts k
          = getC a.contacts k := by
        intro k hk
        exact fusionStep_contacts_ne env rp rR a i k
          (fun h => hiL (h ▸ hk))
      obtain ⟨hS, hT, hP, hSo, hPo⟩ := fusionStep_sums env rp rR a i
      obtain ⟨iS, iT, iP, iSo, iPo⟩ := ih (fusionStep env rp rR a i)
        (List.nodup_cons.1 hnd).2
      have hfilterW : L.filter
            (fun k => (getC (fusionStep env rp rR a i).contacts k).wasAlreadySet_)
          = L.filter (fun k => (getC a.contacts k).wasAlreadySet_) := by
        apply List.filter_congr
        intro k hk; rw [hne k hk]
      have hfilterO : L.filter
            (fun k => (getC (fusionStep env rp rR a i).contacts k).wasAlreadySet_
              && (env.withNaiveYawEstimation
                  && (getC (fusionStep env rp rR a i).contacts k).useForOrientation_))
          = L.filter (fun k => (getC a.contacts k).wasAlreadySet_
              && (env.withNaiveYawEstimation
                  && (getC a.contacts k).useForOrientation_)) := by
        apply List.filter_congr
        intro k hk; rw [hne k hk]
      have hmapF : ∀ M : List Nat, (∀ k ∈ M, k ∈ L) →
          M.map (fun k => forceUsedC env (fusionStep env rp rR a i).contacts k)
            = M.map (fun k => forceUsedC env a.contacts k) := by
        intro M hM
        apply List.map_congr_left
        intro k hk
        simp only [forceUsedC, hne k (hM k hk)]
      have hmapC : ∀ M : List Nat, (∀ k ∈ M, k ∈ L) →
          M.map (fun k => forceUsedC env (fusionStep env rp rR a i).contacts k
              • candidateOf env rp rR (fusionStep env rp rR a i).contacts k)
            = M.map (fun k => forceUsedC env a.contacts k
              • candidateOf env rp rR a.contacts k) := by
        intro M hM
        apply List.map_congr_left
        intro k hk
        simp only [forceUsedC, candidateOf, hne k (hM k hk)]
      refine ⟨?_, ?_, ?_, ?_, ?_⟩
      · rw [List.foldl_cons, iS, hfilterW,
          hmapF _ (fun k hk => List.mem_of_mem_filter hk), hS]
        by_cases hw : (getC a.contacts i).wasAlreadySet_ = true <;>
          simp [List.filter_cons, hw, add_assoc]
      · rw [List.foldl_cons, iT, hfilterW,
          hmapC _ (fun k hk => List.mem_of_mem_filter hk), hT]
        by_cases hw : (getC a.contacts i).wasAlreadySet_ = true <;>
          simp [List.filter_cons, hw, add_assoc]
      · rw [List.foldl_cons, iP, hfilterW, hP]
        by_cases hw : (getC a.contacts i).wasAlreadySet_ = true <;>
          cases hb : a.positionUpdatable <;>
          simp [List.filter_cons, hw, hb]
      · rw [List.foldl_cons, iSo, hfilterO,
          hmapF _ (fun k hk => List.mem_of_mem_filter hk), hSo]
        by_cases hw : ((getC a.contacts i).wasAlreadySet_
            && (env.withNaiveYawEstimation
                && (getC a.contacts i).useForOrientation_)) = true <;>
          simp [List.filter_cons, hw, add_assoc]
      · rw [List.foldl_cons, iPo, hfilterO, hPo]
        by_cases hw : ((getC a.contacts i).wasAlreadySet_
            && (env.withNaiveYawEstimation
                && (getC a.contacts i).useForOrientation_)) = true <;>
          cases hb : a.orientationUpdatable <;>
          simp [List.filter_cons, hw, hb]

/-! ## Helper lemmas: the second loop (newly set contacts) -/

theorem newContactStep_ne (env : OdoEnv) (p : V3) (R : M3)
    (cs : List LoContactWithSensor) (i j : Nat) (hj : j ≠ i) :
    getC (newContactStep env p R cs i) j = getC cs j := by
  by_cases hw : (getC cs i).wasAlreadySet_ = true
  · simp [newContactStep, hw]
  · simp only [Bool.not_eq_true] at hw
    simp [newContactStep, hw, getC_updateNth_ne _ _ _ _ hj]

theorem newContactStep_length (env : OdoEnv) (p : V3) (R : M3)
    (cs : List LoContactWithSensor) (i : Nat) :
    (newContactStep env p R cs i).length = cs.length := by
  by_cases hw : (getC cs i).wasAlreadySet_ = true
  · simp [newContactStep, hw]
  · simp only [Bool.not_eq_true] at hw
    simp [newContactStep, hw, updateNth_length]

theorem newLoop_not_mem (env : OdoEnv) (p : V3) (R : M3) (L : List Nat) :
    ∀ (cs : List LoContactWithSensor) (j : Nat), j ∉ L →
      getC (L.foldl (newContactStep env p R) cs) j = getC cs j := by
  induction L with
  | nil => intro cs j _; rfl
  | cons i L ih =>
      intro cs j hj
      rw [List.foldl_cons, ih _ _ (fun h => hj (List.mem_cons_of_mem _ h))]
      exact newContactStep_ne env p R cs i j
        (fun h => hj (h ▸ List.mem_cons_self _ _))

theorem newLoop_mem (env : OdoEnv) (p : V3) (R : M3) (L : List Nat) :
    ∀ (cs : List LoContactWithSensor) (j : Nat), L.Nodup →
      (∀ k ∈ L, k < cs.length) → j ∈ L →
      getC (L.foldl (newContactStep env p R) cs) j
        = (if (getC cs j).wasAlreadySet_ then getC cs j
           else setNewContactAt env p R j (getC cs j)) := by
  induction L with
  | nil => intro cs j _ _ hj; exact absurd hj (List.not_mem_nil j)
  | cons i L ih =>
      intro cs j hnd hv hj
      rw [List.foldl_cons]
      rcases List.mem_cons.1 hj with rfl | hjL
      · have hiL : j ∉ L := (List.nodup_cons.1 hnd).1
        rw [newLoop_not_mem env p R L _ j hiL]
        by_cases hw : (getC cs j).wasAlreadySet_ = true
        · simp [newContactStep, hw]
        · simp only [Bool.not_eq_true] at hw
          simp [newContactStep, hw,
            getC_updateNth_self _ _ _ (hv j (List.mem_cons_self _ _))]
      · have hji : j ≠ i := by
          intro h; subst h; exact (List.nodup_cons.1 hnd).1 hjL
        rw [ih _ j (List.nodup_cons.1 hnd).2
          (fun k hk => by
            rw [newContactStep_length]; exact hv k (List.mem_cons_of_mem _ hk)) hjL]
        rw [newContactStep_ne env p R cs i j hji]

/-! ## Projections of `updateContacts` -/

theorem updateContacts_fbPos (env : OdoEnv) (st : LOState) :
    (updateContacts env st).fbPos = fbPosNext env st := rfl

theorem updateContacts_fbRot (env : OdoEnv) (st : LOState) :
    (updateContacts env st).fbRot = fbRotNext env st := rfl

theorem updateContacts_robotPos (env : OdoEnv) (st : LOState) :
    (updateContacts env st).robotPos = fbPosNext env st := rfl

theorem updateContacts_robotRot (env : OdoEnv) (st : LOState) :
    (updateContacts env st).robotRot = fbRotNext env st := rfl

theorem updateContacts_contacts (env : OdoEnv) (st : LOState) :
    (updateContacts env st).contacts
      = st.contactsFound.foldl
          (newContactStep env (fbPosNext env st) (fbRotNext env st))
          (fusionOut env st).contacts := rfl

/-! ## Facts about the fusion output -/

theorem fusionOut_length (env : OdoEnv) (st : LOState) :
    (fusionOut env st).contacts.length = st.contacts.length := by
  rw [fusionOut, runFusionLoop, fusionLoop_length]
  exact select_length st

theorem fusionOut_mem (env : OdoEnv) (st : LOState) (j : Nat)
    (hnd : st.contactsFound.Nodup)
    (hv : ∀ k ∈ st.contactsFound, k < st.contacts.length)
    (hj : j ∈ st.contactsFound) :
    getC (fusionOut env st).contacts j
      = fusionContactUpdate env st.robotRot
          (selectForOrientationOdometry st).contacts j := by
  rw [fusionOut, runFusionLoop]
  rw [select_contactsFound, select_robotPos, select_robotRot]
  exact fusionLoop_mem env st.robotPos st.robotRot st.contactsFound _ j hnd
    (fun k hk => by rw [select_length]; exact hv k hk) hj

theorem fusionOut_sums (env : OdoEnv) (st : LOState)
    (hnd : st.contactsFound.Nodup) :
    (fusionOut env st).sumForcesPosition = sumForcesPositionSpec env st
  ∧ (fusionOut env st).totalFbPosition = totalFbPositionSpec env st
  ∧ (fusionOut env st).positionUpdatable = !(maintainedFound st).isEmpty := by
  rw [fusionOut, runFusionLoop, select_contactsFound, select_robotPos,
    select_robotRot]
  obtain ⟨hS, hT, hP, _, _⟩ :=
    fusionLoop_sums env st.robotPos st.robotRot st.contactsFound
      { sumForcesPosition := 0, sumForcesOrientation := 0,
        totalFbPosition := 0, positionUpdatable := false,
        orientationUpdatable := false,
        contacts := (selectForOrientationOdometry st).contacts } hnd
  have hfilter : st.contactsFound.filter
        (fun k => (getC (selectForOrientationOdometry st).contacts k).wasAlreadySet_)
      = maintainedFound st := by
    apply List.filter_congr
    intro k _
    rw [select_was]
  refine ⟨?_, ?_, ?_⟩
  · rw [hS, hfilter, zero_add]
    rw [sumForcesPositionSpec]
    apply congrArg
    apply List.map_congr_left
    intro k _
    simp only [forceUsedC, select_forceNorm]
  · rw [hT, hfilter, zero_add]
    rw [totalFbPositionSpec]
    apply congrArg
    apply List.map_congr_left
    intro k _
    simp only [forceUsedC, candidateOf, select_forceNorm, select_refPos]
  · rw [hP, hfilter, Bool.false_or]

theorem fusionOut_ori_sums (env : OdoEnv) (st : LOState)
    (hnd : st.contactsFound.Nodup) :
    (fusionOut env st).sumForcesOrientation
      = ((st.contactsFound.filter
          (fun k => (getC st.contacts k).wasAlreadySet_
            && (env.withNaiveYawEstimation
                && (getC (selectForOrientationOdometry st).contacts k).useForOrientation_))).map
          (fun k => forceUsedC env st.contacts k)).sum
  ∧ (fusionOut env st).orientationUpdatable
      = !(st.contactsFound.filter
          (fun k => (getC st.contacts k).wasAlreadySet_
            && (env.withNaiveYawEstimation
                && (getC (selectForOrientationOdometry st).contacts k).useForOrientation_))).isEmpty := by
  rw [fusionOut, runFusionLoop, select_contactsFound, select_robotPos,
    select_robotRot]
  obtain ⟨_, _, _, hSo, hPo⟩ :=
    fusionLoop_sums env st.robotPos st.robotRot st.contactsFound
      { sumForcesPosition := 0, sumForcesOrientation := 0,
        totalFbPosition := 0, positionUpdatable := false,
        orientationUpdatable := false,
        contacts := (selectForOrientationOdometry st).contacts } hnd
  have hfilter : st.contactsFound.filter
        (fun k => (getC (selectForOrientationOdometry st).contacts k).wasAlreadySet_
          && (env.withNaiveYawEstimation
              && (getC (selectForOrientationOdometry st).contacts k).useForOrientation_))
      = st.contactsFound.filter
        (fun k => (getC st.contacts k).wasAlreadySet_
          && (env.withNaiveYawEstimation
              && (getC (selectForOrientationOdometry st).contacts k).useForOrientation_)) := by
    apply List.filter_congr
    intro k _
    rw [select_was]
  refine ⟨?_, ?_⟩
  · rw [hSo, hfilter, zero_add]
    apply congrArg
    apply List.map_congr_left
    intro k _
    simp only [forceUsedC, select_forceNorm]
  · rw [hPo, hfilter, Bool.false_or]

theorem fusionContactUpdate_not_maintained (env : OdoEnv) (rR : M3)
    (cs : List LoContactWithSensor) (i : Nat)
    (h : (getC cs i).wasAlreadySet_ = false) :
    fusionContactUpdate env rR cs i = getC cs i := by
  simp [fusionContactUpdate, h]

theorem fusionContactUpdate_forceNorm (env : OdoEnv) (rR : M3)
    (cs : List LoContactWithSensor) (i : Nat)
    (h : (getC cs i).wasAlreadySet_ = true) :
    (fusionContactUpdate env rR cs i).forceNorm_ = forceUsedC env cs i := by
  by_cases hd : env.detectionFromThreshold = true
  · by_cases ho : (env.withNaiveYawEstimation
        && (getC cs i).useForOrientation_) = true <;>
      simp [fusionContactUpdate, forceUsedC, h, hd, ho]
  · by_cases ho : (env.withNaiveYawEstimation
        && (getC cs i).useForOrientation_) = true <;>
      simp [fusionContactUpdate, forceUsedC, h, hd, ho]

theorem fusionLoop_id (env : OdoEnv) (rp : V3) (rR : M3) (L : List Nat) :
    ∀ a : FusionAcc, (∀ i ∈ L, (getC a.contacts i).wasAlreadySet_ = false) →
      L.foldl (fusionStep env rp rR) a = a := by
  induction L with
  | nil => intro a _; rfl
  | cons i L ih =>
      intro a h
      rw [List.foldl_cons,
        fusionStep_not_maintained env rp rR a i (h i (List.mem_cons_self _ _))]
      exact ih a (fun k hk => h k (List.mem_cons_of_mem _ hk))

theorem updateContacts_new_refKine (env : OdoEnv) (st : LOState) (i : Nat)
    (hnd : st.contactsFound.Nodup)
    (hv : ∀ k ∈ st.contactsFound, k < st.contacts.length)
    (hi : i ∈ st.contactsFound)
    (hw : (getC st.contacts i).wasAlreadySet_ = false) :
    getC (updateContacts env st).contacts i
      = setNewContactAt env (fbPosNext env st) (fbRotNext env st) i
          (getC (fusionOut env st).contacts i) := by
  rw [updateContacts_contacts]
  have hv' : ∀ k ∈ st.contactsFound, k < (fusionOut env st).contacts.length := by
    intro k hk; rw [fusionOut_length]; exact hv k hk
  rw [newLoop_mem env _ _ st.contactsFound _ i hnd hv' hi]
  have hwf : (getC (fusionOut env st).contacts i).wasAlreadySet_ = false := by
    rw [fusionOut_mem env st i hnd hv hi,
      fusionContactUpdate_not_maintained _ _ _ _ (by rw [select_was]; exact hw),
      select_was]
    exact hw
  rw [if_neg (by rw [hwf]; exact Bool.false_ne_true)]

theorem vdiv_half (x : ℚ) (c1 c2 : V3) (hx : x ≠ 0) :
    vdiv (x • c1 + x • c2) (x + x) = ((1 : ℚ) / 2) • (c1 + c2) := by
  funext k
  simp only [vdiv, Pi.add_apply, Pi.smul_apply, smul_eq_mul]
  have hxx : x + x ≠ 0 := by
    intro h0; exact hx (by linarith)
  rw [div_eq_iff hxx]
  ring

/-- Claim C1: whenever at least one maintained contact exists, the fused
floating-base position equals the force-weighted mean
`Σ(candidate·force)/Σ(force)` over the maintained contacts; with exactly
two maintained contacts it is `(C1·f1 + C2·f2)/(f1+f2)`, and the midpoint
of the two candidates when the forces are equal (and nonzero). -/
theorem claim_C1 (env : OdoEnv) (st : LOState)
    (hnd : st.contactsFound.Nodup)
    (hup : ∃ i ∈ st.contactsFound, (getC st.contacts i).wasAlreadySet_ = true) :
    (updateContacts env st).fbPos
      = vdiv (totalFbPositionSpec env st) (sumForcesPositionSpec env st)
  ∧ (∀ i1 i2 : Nat, maintainedFound st = [i1, i2] →
      ((updateContacts env st).fbPos
        = vdiv (forceUsedC env st.contacts i1
              • candidateOf env st.robotPos st.robotRot st.contacts i1
            + forceUsedC env st.contacts i2
              • candidateOf env st.robotPos st.robotRot st.contacts i2)
            (forceUsedC env st.contacts i1 + forceUsedC env st.contacts i2))
      ∧ (forceUsedC env st.contacts i1 = forceUsedC env st.contacts i2 →
         forceUsedC env st.contacts i1 ≠ 0 →
         (updateContacts env st).fbPos
           = ((1 : ℚ) / 2)
              • (candidateOf env st.robotPos st.robotRot st.contacts i1
                + candidateOf env st.robotPos st.robotRot st.contacts i2))) := by
  obtain ⟨hS, hT, hP⟩ := fusionOut_sums env st hnd
  have hpos : (fusionOut env st).positionUpdatable = true := by
    rw [hP]
    obtain ⟨i, hi, hw⟩ := hup
    have hmem : i ∈ maintainedFound st := List.mem_filter.2 ⟨hi, hw⟩
    cases hM : (maintainedFound st).isEmpty
    · rfl
    · rw [List.isEmpty_iff] at hM
      rw [hM] at hmem
      exact absurd hmem (List.not_mem_nil i)
  have h1 : (updateContacts env st).fbPos
      = vdiv (totalFbPositionSpec env st) (sumForcesPositionSpec env st) := by
    rw [updateContacts_fbPos]
    simp only [fbPosNext, hpos, if_true, hS, hT]
  refine ⟨h1, ?_⟩
  intro i1 i2 h12
  have hsum : sumForcesPositionSpec env st
      = forceUsedC env st.contacts i1 + forceUsedC env st.contacts i2 := by
    rw [sumForcesPositionSpec, h12]
    simp
  have htot : totalFbPositionSpec env st
      = forceUsedC env st.contacts i1
          • candidateOf env st.robotPos st.robotRot st.contacts i1
        + forceUsedC env st.contacts i2
          • candidateOf env st.robotPos st.robotRot st.contacts i2 := by
    rw [totalFbPositionSpec, h12]
    simp
  have h2 := h1
  rw [hsum, htot] at h2
  refine ⟨h2, ?_⟩
  intro hf hf0
  rw [h2, ← hf, vdiv_half _ _ _ hf0]

/-- Claim C1, witness: two maintained contacts with equal forces 2 and 2;
the fused position is the force-weighted mean, and the midpoint of the two
candidates. -/
theorem claim_C1_witness :
    (stC1.contactsFound.Nodup
      ∧ (∃ i ∈ stC1.contactsFound, (getC stC1.contacts i).wasAlreadySet_ = true)
      ∧ maintainedFound stC1 = [0, 1]
      ∧ forceUsedC envW stC1.contacts 0 = forceUsedC envW stC1.contacts 1
      ∧ forceUsedC envW stC1.contacts 0 ≠ 0)
  ∧ (updateContacts envW stC1).fbPos
      = vdiv (totalFbPositionSpec envW stC1) (sumForcesPositionSpec envW stC1)
  ∧ (updateContacts envW stC1).fbPos
      = vdiv (forceUsedC envW stC1.contacts 0
            • candidateOf envW stC1.robotPos stC1.robotRot stC1.contacts 0
          + forceUsedC envW stC1.contacts 1
            • candidateOf envW stC1.robotPos stC1.robotRot stC1.contacts 1)
          (forceUsedC envW stC1.contacts 0 + forceUsedC envW stC1.contacts 1)
  ∧ (updateContacts envW stC1).fbPos
      = ((1 : ℚ) / 2)
          • (candidateOf envW stC1.robotPos stC1.robotRot stC1.contacts 0
            + candidateOf envW stC1.robotPos stC1.robotRot stC1.contacts 1) :=
  ⟨⟨by decide, by decide, by decide, by decide, by decide⟩,
   (claim_C1 envW stC1 (by decide) (by decide)).1,
   ((claim_C1 envW stC1 (by decide) (by decide)).2 0 1 (by decide)).1,
   ((claim_C1 envW stC1 (by decide) (by decide)).2 0 1 (by decide)).2
     (by decide) (by decide)⟩

/-- Claim C3: in a cycle where no found contact was already set (in
particular when no contact is found at all), the fusion step leaves the
floating-base pose estimate unchanged, and the pose written back into the
odometry robot equals that held estimate; the function is total, so no
error is raised. -/
theorem claim_C3 (env : OdoEnv) (st : LOState)
    (h : ∀ i ∈ st.contactsFound, (getC st.contacts i).wasAlreadySet_ = false) :
    (updateContacts env st).fbPos = st.fbPos
  ∧ (updateContacts env st).fbRot = st.fbRot
  ∧ (updateContacts env st).robotPos = st.fbPos
  ∧ (updateContacts env st).robotRot = st.fbRot := by
  have hid : fusionOut env st
      = { sumForcesPosition := 0, sumForcesOrientation := 0,
          totalFbPosition := 0, positionUpdatable := false,
          orientationUpdatable := false,
          contacts := (selectForOrientationOdometry st).contacts } := by
    rw [fusionOut, runFusionLoop, select_contactsFound, select_robotPos,
      select_robotRot]
    apply fusionLoop_id
    intro i hi
    rw [select_was]
    exact h i hi
  have hpos : fbPosNext env st = st.fbPos := by
    simp only [fbPosNext, hid, if_false, Bool.false_eq_true]
  have hrot : fbRotNext env st = st.fbRot := by
    simp only [fbRotNext, hid, Bool.false_and, if_false, Bool.false_eq_true]
  exact ⟨by rw [updateContacts_fbPos, hpos],
    by rw [updateContacts_fbRot, hrot],
    by rw [updateContacts_robotPos, hpos],
    by rw [updateContacts_robotRot, hrot]⟩

/-- Claim C3, witness: a cycle whose single found contact is freshly
activated keeps the previous pose estimate. -/
theorem claim_C3_witness :
    (∀ i ∈ stC3.contactsFound, (getC stC3.contacts i).wasAlreadySet_ = false)
  ∧ (updateContacts envW stC3).fbPos = stC3.fbPos
  ∧ (updateContacts envW stC3).fbRot = stC3.fbRot
  ∧ (updateContacts envW stC3).robotPos = stC3.fbPos
  ∧ (updateContacts envW stC3).robotRot = stC3.fbRot :=
  ⟨by decide, (claim_C3 envW stC3 (by decide)).1,
   (claim_C3 envW stC3 (by decide)).2.1,
   (claim_C3 envW stC3 (by decide)).2.2.1,
   (claim_C3 envW stC3 (by decide)).2.2.2⟩

/-- Claim C7: in flat (non-6D) odometry, every reference position computed
by `setNewContact` has vertical coordinate exactly 0 — for any sensed
kinematics, hence for both the threshold-based and the surface-based
sub-policies — and so does the reference position stored for any freshly
activated contact by `updateContacts`. -/
theorem claim_C7 (env : OdoEnv) (hflat : env.odometry6d = false) :
    (∀ (p : V3) (R : M3) (i : Nat), setNewContactRefPos env p R i 2 = 0)
  ∧ (∀ (st : LOState) (i : Nat), st.contactsFound.Nodup →
      (∀ k ∈ st.contactsFound, k < st.contacts.length) →
      i ∈ st.contactsFound → (getC st.contacts i).wasAlreadySet_ = false →
      (getC (updateContacts env st).contacts i).worldRefKinePos 2 = 0) := by
  have hz : ∀ (p : V3) (R : M3) (i : Nat), setNewContactRefPos env p R i 2 = 0 := by
    intro p R i
    simp [setNewContactRefPos, hflat, setZeroZ, Function.update]
  refine ⟨hz, ?_⟩
  intro st i hnd hv hi hw
  rw [updateContacts_new_refKine env st i hnd hv hi hw]
  exact hz _ _ i

/-- Claim C7, witness: with flat odometry and a force sensor sitting at
height 5, both the reference-position function and the reference position
stored by the pipeline for the freshly activated contact have height 0. -/
theorem claim_C7_witness :
    (envC7h.odometry6d = false
      ∧ stC7.contactsFound.Nodup
      ∧ (∀ k ∈ stC7.contactsFound, k < stC7.contacts.length)
      ∧ 1 ∈ stC7.contactsFound
      ∧ (getC stC7.contacts 1).wasAlreadySet_ = false)
  ∧ setNewContactRefPos envC7h (fun k => if k = 2 then 5 else 0) 1 0 2 = 0
  ∧ (getC (updateContacts envC7h stC7).contacts 1).worldRefKinePos 2 = 0 :=
  ⟨⟨by decide, by decide, by decide, by decide, by decide⟩,
   (claim_C7 envC7h (by decide)).1 (fun k => if k = 2 then 5 else 0) 1 0,
   (claim_C7 envC7h (by decide)).2 stC7 1 (by decide) (by decide) (by decide)
     (by decide)⟩

/-- Claim C10: inside `updateContacts`, the fused pose is written into the
odometry robot (and its forward kinematics recomputed) before the second
loop runs, so the reference kinematics of every freshly activated contact
are computed from the just-fused floating-base pose; afterwards the robot
pose and the estimate coincide. -/
theorem claim_C10 (env : OdoEnv) (st : LOState) (i : Nat)
    (hnd : st.contactsFound.Nodup)
    (hv : ∀ k ∈ st.contactsFound, k < st.contacts.length)
    (hi : i ∈ st.contactsFound)
    (hw : (getC st.contacts i).wasAlreadySet_ = false) :
    (updateContacts env st).robotPos = (updateContacts env st).fbPos
  ∧ (updateContacts env st).robotRot = (updateContacts env st).fbRot
  ∧ (getC (updateContacts env st).contacts i).worldRefKinePos
      = setNewContactRefPos env (updateContacts env st).fbPos
          (updateContacts env st).fbRot i
  ∧ (getC (updateContacts env st).contacts i).worldRefKineOri
      = setNewContactRefOri env (updateContacts env st).fbRot i
  ∧ (getC (updateContacts env st).contacts i).isSet_ = true := by
  have hrk := updateContacts_new_refKine env st i hnd hv hi hw
  refine ⟨rfl, rfl, ?_, ?_, ?_⟩
  · rw [hrk]; rfl
  · rw [hrk]; rfl
  · rw [hrk]; rfl

/-- Claim C10, witness: the freshly activated contact of `stC10` is
anchored at the fused pose, which has been written back into the robot. -/
theorem claim_C10_witness :
    (stC10.contactsFound.Nodup
      ∧ (∀ k ∈ stC10.contactsFound, k < stC10.contacts.length)
      ∧ 1 ∈ stC10.contactsFound
      ∧ (getC stC10.contacts 1).wasAlreadySet_ = false)
  ∧ (updateContacts envW stC10).robotPos = (updateContacts envW stC10).fbPos
  ∧ (updateContacts envW stC10).robotRot = (updateContacts envW stC10).fbRot
  ∧ (getC (updateContacts envW stC10).contacts 1).worldRefKinePos
      = setNewContactRefPos envW (updateContacts envW stC10).fbPos
          (updateContacts envW stC10).fbRot 1
  ∧ (getC (updateContacts envW stC10).contacts 1).worldRefKineOri
      = setNewContactRefOri envW (updateContacts envW stC10).fbRot 1
  ∧ (getC (updateContacts envW stC10).contacts 1).isSet_ = true :=
  ⟨⟨by decide, by decide, by decide, by decide⟩,
   (claim_C10 envW stC10 1 (by decide) (by decide) (by decide) (by decide)).1,
   (claim_C10 envW stC10 1 (by decide) (by decide) (by decide) (by decide)).2.1,
   (claim_C10 envW stC10 1 (by decide) (by decide) (by decide) (by decide)).2.2.1,
   (claim_C10 envW stC10 1 (by decide) (by decide) (by decide) (by decide)).2.2.2.1,
   (claim_C10 envW stC10 1 (by decide) (by decide) (by decide) (by decide)).2.2.2.2⟩

/-- Claim C4: after `selectForOrientationOdometry` the candidate set holds
at most 2 contacts, ordered ascending by force norm; when more than two
eligible contacts with pairwise distinct forces exist, exactly the two
with the highest force norms remain and every eligible contact left out
has its `useForOrientation_` flag cleared. -/
theorem claim_C4 (st : LOState)
    (hnd : st.contactsFound.Nodup)
    (hD : ∀ i ∈ eligOf st, ∀ j ∈ eligOf st, i ≠ j →
      (getC st.contacts i).forceNorm_ ≠ (getC st.contacts j).forceNorm_) :
    (selectForOrientationOdometry st).oriOdometryContacts.length ≤ 2
  ∧ (selectForOrientationOdometry st).oriOdometryContacts.Pairwise
      (fun a b =>
        (getC st.contacts a).forceNorm_ < (getC st.contacts b).forceNorm_)
  ∧ (2 < (eligOf st).length →
      (selectForOrientationOdometry st).oriOdometryContacts.length = 2
      ∧ (∀ j ∈ (selectForOrientationOdometry st).oriOdometryContacts,
          ∀ k ∈ eligOf st,
            k ∉ (selectForOrientationOdometry st).oriOdometryContacts →
            (getC st.contacts k).forceNorm_ < (getC st.contacts j).forceNorm_))
  ∧ (∀ k ∈ eligOf st,
      k ∉ (selectForOrientationOdometry st).oriOdometryContacts →
      (getC (selectForOrientationOdometry st).contacts k).useForOrientation_
        = false) := by
  have hDf : ∀ i ∈ eligOf st, ∀ j ∈ eligOf st, i ≠ j →
      forceOf st.contacts i ≠ forceOf st.contacts j := hD
  have hndE : (eligOf st).Nodup := List.Nodup.filter _ hnd
  have hperm : (insertFold (forceOf st.contacts) (eligOf st) []).Perm
      (eligOf st ++ []) :=
    insertFold_perm _ _ _ hndE hDf
      (fun a _ b hb => absurd hb (List.not_mem_nil b))
  rw [List.append_nil] at hperm
  set I := insertFold (forceOf st.contacts) (eligOf st) [] with hIdef
  have hlenI : I.length = (eligOf st).length := hperm.length_eq
  have hOri := select_ori st
  rw [← hIdef] at hOri
  have hPW : I.Pairwise (fun a b => forceOf st.contacts a < forceOf st.contacts b) :=
    pairwise_insertFold _ _ _ List.Pairwise.nil
  have hsplit : I.take (I.length - 2) ++ I.drop (I.length - 2) = I :=
    List.take_append_drop _ _
  have hcross : ∀ a ∈ I.take (I.length - 2), ∀ b ∈ I.drop (I.length - 2),
      forceOf st.contacts a < forceOf st.contacts b := by
    have h2 := hPW
    rw [← hsplit] at h2
    exact (List.pairwise_append.1 h2).2.2
  have htake : ∀ k, k ∈ eligOf st →
      k ∉ (selectForOrientationOdometry st).oriOdometryContacts →
      k ∈ I.take (I.length - 2) := by
    intro k hk hkO
    have hkI : k ∈ I := hperm.mem_iff.2 hk
    have hkI2 : k ∈ I.take (I.length - 2) ++ I.drop (I.length - 2) := by
      rw [hsplit]; exact hkI
    rcases List.mem_append.1 hkI2 with h | h
    · exact h
    · rw [hOri] at hkO
      exact absurd h hkO
  refine ⟨?_, ?_, ?_, ?_⟩
  · rw [hOri, List.length_drop]
    omega
  · exact select_ori_pairwise st
  · intro hgt
    refine ⟨by rw [hOri, List.length_drop]; omega, ?_⟩
    intro j hj k hk hkO
    rw [hOri] at hj
    exact hcross k (htake k hk hkO) j hj
  · intro k hk hkO
    rw [select_contacts_eq]
    have hI2 : (selectInsertLoop st.contacts [] st.contactsFound).2 = I := by
      rw [selectInsertLoop_snd]; rfl
    rw [hI2]
    exact clearList_flag_mem _ _ k (htake k hk hkO)

/-- Claim C4, witness: five eligible contacts with distinct forces
1..5; the two with the highest forces (indices 3 and 4) remain, the
evicted contact 0 has a smaller force than the kept contact 3 and its
eligibility flag cleared. -/
theorem claim_C4_witness :
    (stC4.contactsFound.Nodup
      ∧ (∀ i ∈ eligOf stC4, ∀ j ∈ eligOf stC4, i ≠ j →
          (getC stC4.contacts i).forceNorm_ ≠ (getC stC4.contacts j).forceNorm_)
      ∧ 2 < (eligOf stC4).length
      ∧ 3 ∈ (selectForOrientationOdometry stC4).oriOdometryContacts
      ∧ 0 ∈ eligOf stC4
      ∧ 0 ∉ (selectForOrientationOdometry stC4).oriOdometryContacts)
  ∧ (selectForOrientationOdometry stC4).oriOdometryContacts.length ≤ 2
  ∧ (selectForOrientationOdometry stC4).oriOdometryContacts.length = 2
  ∧ (getC stC4.contacts 0).forceNorm_ < (getC stC4.contacts 3).forceNorm_
  ∧ (getC (selectForOrientationOdometry stC4).contacts 0).useForOrientation_
      = false :=
  ⟨⟨by decide, by decide, by decide, by decide, by decide, by decide⟩,
   (claim_C4 stC4 (by decide) (by decide)).1,
   ((claim_C4 stC4 (by decide) (by decide)).2.2.1 (by decide)).1,
   ((claim_C4 stC4 (by decide) (by decide)).2.2.1 (by decide)).2
     3 (by decide) 0 (by decide) (by decide),
   (claim_C4 stC4 (by decide) (by decide)).2.2.2
     0 (by decide) (by decide)⟩

/-- Claim C5 (amended): every contact placed in the orientation candidate
set is a contact found this cycle whose name does not contain `"Hand"`;
the code does not require the contact to have been active on the previous
cycle, so freshly activated contacts are selected as well (see the
counterexample). -/
theorem claim_C5 (st : LOState) (j : Nat)
    (hj : j ∈ (selectForOrientationOdometry st).oriOdometryContacts) :
    j ∈ st.contactsFound
  ∧ nameHasHand (getC st.contacts j).name_ = false := by
  have helig := select_ori_mem_elig st j hj
  refine ⟨List.mem_of_mem_filter helig, ?_⟩
  have h2 := List.of_mem_filter helig
  simpa using h2

/-- Claim C5, counterexample: a freshly activated contact (its
`wasAlreadySet_` flag is false) named `"LeftFoot"` is placed into the
orientation candidate set and marked orientation-eligible, refuting the
claim that only maintained contacts are ever selected. -/
theorem claim_C5_counterexample :
    0 ∈ (selectForOrientationOdometry stC5).oriOdometryContacts
  ∧ (getC stC5.contacts 0).wasAlreadySet_ = false
  ∧ (getC (selectForOrientationOdometry stC5).contacts 0).useForOrientation_
      = true :=
  ⟨by decide, by decide, by decide⟩

/-- Claim C5, witness for the amended statement: the selected contact of
`stC5` is indeed found this cycle and its name does not contain `"Hand"`. -/
theorem claim_C5_witness :
    0 ∈ (selectForOrientationOdometry stC5).oriOdometryContacts
  ∧ (0 ∈ stC5.contactsFound
      ∧ nameHasHand (getC stC5.contacts 0).name_ = false) :=
  ⟨by decide, claim_C5 stC5 0 (by decide)⟩

/-- Claim C6: the classifier partitions `P ∪ N` into `new = N \ P`,
`maintained = N ∩ P` and `removed = P \ N`, pairwise disjoint and covering,
and the callbacks are invoked first for the new, then for the maintained,
then for the removed ids (each group in registry insertion order).
The classifier body is modelled from the spec, as `ContactsManager.hpp` is
not part of the sources. -/
theorem claim_C6 (P N : Finset ℕ) (order : List ℕ) :
    (classifyContacts P N).1 = N \ P
  ∧ (classifyContacts P N).2.1 = N ∩ P
  ∧ (classifyContacts P N).2.2 = P \ N
  ∧ Disjoint (N \ P) (N ∩ P)
  ∧ Disjoint (N \ P) (P \ N)
  ∧ Disjoint (N ∩ P) (P \ N)
  ∧ (N \ P) ∪ (N ∩ P) ∪ (P \ N) = P ∪ N
  ∧ contactEventTrace order P N
      = (order.filter (fun i => decide (i ∈ (classifyContacts P N).1))).map
          (fun i => (ContactEvent.newContact, i))
        ++ (order.filter (fun i => decide (i ∈ (classifyContacts P N).2.1))).map
          (fun i => (ContactEvent.maintainedContact, i))
        ++ (order.filter (fun i => decide (i ∈ (classifyContacts P N).2.2))).map
          (fun i => (ContactEvent.removedContact, i)) := by
  refine ⟨rfl, rfl, rfl, ?_, ?_, ?_, ?_, rfl⟩
  · rw [Finset.disjoint_left]
    intro a ha hb
    exact (Finset.mem_sdiff.1 ha).2 (Finset.mem_inter.1 hb).2
  · rw [Finset.disjoint_left]
    intro a ha hb
    exact (Finset.mem_sdiff.1 hb).2 (Finset.mem_sdiff.1 ha).1
  · rw [Finset.disjoint_left]
    intro a ha hb
    exact (Finset.mem_sdiff.1 hb).2 (Finset.mem_inter.1 ha).1
  · ext a
    simp only [Finset.mem_union, Finset.mem_sdiff, Finset.mem_inter]
    tauto

/-! ## Facts about the contact registry -/

theorem lookupContact_append_self (m : List (String × RegContact))
    (n : String) (c : RegContact) (h : lookupContact m n = none) :
    lookupContact (m ++ [(n, c)]) n = some c := by
  induction m with
  | nil => simp [lookupContact]
  | cons p m ih =>
      simp only [lookupContact, List.cons_append, List.find?] at h ⊢
      cases hb : (p.1 == n) with
      | false =>
          simp only [hb] at h ⊢
          exact ih (by simpa [lookupContact] using h)
      | true =>
          simp only [hb] at h
          simp at h

theorem addContact_found (st : CMState) (n s : String) (c : RegContact)
    (h : lookupContact st.listContacts_ n = some c) :
    addContactToManager st n s = (st, c) := by
  simp [addContactToManager, h]

theorem addContact_fresh (st : CMState) (n s : String)
    (h : lookupContact st.listContacts_ n = none) :
    addContactToManager st n s
      = ({ listContacts_ :=
             st.listContacts_ ++ [(n, { id_ := st.idx_, name_ := n, surface_ := s })],
           insertOrder_ := st.insertOrder_ ++ [n],
           idx_ := st.idx_ + 1 },
         { id_ := st.idx_, name_ := n, surface_ := s }) := by
  simp [addContactToManager, h]

/-- Claim C8: adding a contact is idempotent by name — the second call
returns the very same contact and leaves the whole registry (including
`idx_` and `insertOrder_`) unchanged — and a first insertion assigns the
next sequential id `idx_`, increments `idx_` and appends the name to the
insertion order (so ids follow insertion order and are never reused). -/
theorem claim_C8 (st : CMState) (n s s2 : String) :
    (addContactToManager (addContactToManager st n s).1 n s2).2
      = (addContactToManager st n s).2
  ∧ (addContactToManager (addContactToManager st n s).1 n s2).1
      = (addContactToManager st n s).1
  ∧ (lookupContact st.listContacts_ n = none →
      (addContactToManager st n s).2.id_ = st.idx_
      ∧ (addContactToManager st n s).1.idx_ = st.idx_ + 1
      ∧ (addContactToManager st n s).1.insertOrder_ = st.insertOrder_ ++ [n]) := by
  cases h : lookupContact st.listContacts_ n with
  | some c =>
      have e1 : addContactToManager st n s = (st, c) := addContact_found st n s c h
      have e2 : addContactToManager (st, c).1 n s2 = ((st, c).1, c) :=
        addContact_found _ n s2 c h
      rw [e1, e2]
      refine ⟨rfl, rfl, ?_⟩
      intro hnone
      simp at hnone
  | none =>
      rw [addContact_fresh st n s h]
      have h2 : lookupContact
          (st.listContacts_ ++ [(n, { id_ := st.idx_, name_ := n, surface_ := s })]) n
          = some { id_ := st.idx_, name_ := n, surface_ := s } :=
        lookupContact_append_self _ _ _ h
      rw [addContact_found _ n s2 _ h2]
      exact ⟨rfl, rfl, fun _ => ⟨rfl, rfl, rfl⟩⟩

/-- Claim C8, witness: adding `"LeftFootForceSensor"` twice to the empty
registry returns the same contact with id 0, a single insertion-order
entry and `idx_ = 1`. -/
theorem claim_C8_witness :
    (addContactToManager
        (addContactToManager stReg0 "LeftFootForceSensor" "LeftFoot").1
        "LeftFootForceSensor" "Other").2
      = (addContactToManager stReg0 "LeftFootForceSensor" "LeftFoot").2
  ∧ (addContactToManager
        (addContactToManager stReg0 "LeftFootForceSensor" "LeftFoot").1
        "LeftFootForceSensor" "Other").1
      = (addContactToManager stReg0 "LeftFootForceSensor" "LeftFoot").1
  ∧ ((addContactToManager stReg0 "LeftFootForceSensor" "LeftFoot").2.id_
        = stReg0.idx_
      ∧ (addContactToManager stReg0 "LeftFootForceSensor" "LeftFoot").1.idx_
        = stReg0.idx_ + 1
      ∧ (addContactToManager stReg0 "LeftFootForceSensor" "LeftFoot").1.insertOrder_
        = stReg0.insertOrder_ ++ ["LeftFootForceSensor"]) :=
  ⟨(claim_C8 stReg0 "LeftFootForceSensor" "LeftFoot" "Other").1,
   (claim_C8 stReg0 "LeftFootForceSensor" "LeftFoot" "Other").2.1,
   (claim_C8 stReg0 "LeftFootForceSensor" "LeftFoot" "Other").2.2 (by decide)⟩

/-- Claim C9 (amended): the strings accepted by
`stringToContactsDetection` — which is the check run when the manager is
initialized — are exactly `Solver`, `Surfaces`, `Sensors` and `Undefined`;
every other string raises the configuration error.  The original claim,
with the spec's recognized set `{Solver, Surfaces, Sensors}`, is refuted
by the string `"Undefined"` (see the counterexample). -/
theorem claim_C9 :
    (∀ s : String, s ∉ ["Solver", "Surfaces", "Sensors", "Undefined"] →
      stringToContactsDetection s = .error contactsDetectionError)
  ∧ (∀ s ∈ ["Solver", "Surfaces", "Sensors", "Undefined"],
      exceptOk (stringToContactsDetection s) = true) := by
  constructor
  · intro s hs
    simp only [List.mem_cons, List.not_mem_nil, or_false, not_or] at hs
    obtain ⟨h1, h2, h3, h4⟩ := hs
    have g1 : ("Solver" == s) = false := by
      simpa [beq_iff_eq] using Ne.symm h1
    have g2 : ("Surfaces" == s) = false := by
      simpa [beq_iff_eq] using Ne.symm h2
    have g3 : ("Sensors" == s) = false := by
      simpa [beq_iff_eq] using Ne.symm h3
    have g4 : ("Undefined" == s) = false := by
      simpa [beq_iff_eq] using Ne.symm h4
    simp [stringToContactsDetection, strToContactsDetection, List.find?,
      g1, g2, g3, g4]
  · intro s hs
    simp only [List.mem_cons, List.not_mem_nil, or_false] at hs
    rcases hs with rfl | rfl | rfl | rfl <;> decide

/-- Claim C9, counterexample: the string `"Undefined"` is not one of the
spec's recognized detection modes `{Solver, Surfaces, Sensors}`, yet
`stringToContactsDetection` accepts it without raising the configuration
error. -/
theorem claim_C9_counterexample :
    exceptOk (stringToContactsDetection "Undefined") = true
  ∧ "Undefined" ∉ ["Solver", "Surfaces", "Sensors"] :=
  ⟨by decide, by decide⟩

/-- Claim C9, witness: an unknown string raises the configuration error;
the four accepted strings do not. -/
theorem claim_C9_witness :
    ("Foo" ∉ ["Solver", "Surfaces", "Sensors", "Undefined"]
      ∧ stringToContactsDetection "Foo" = .error contactsDetectionError)
  ∧ exceptOk (stringToContactsDetection "Solver") = true :=
  ⟨⟨by decide, claim_C9.1 "Foo" (by decide)⟩, claim_C9.2 "Solver" (by decide)⟩

/-! ## Evaluation of the mixed two-candidate cycle `stC2x` -/

theorem stC2x_select : selectForOrientationOdometry stC2x = stC2xSel := by decide

theorem stC2x_fusion : fusionOut envC2x stC2x = accC2x := by
  rw [fusionOut, stC2x_select]
  have hv : v0 = 0 := rfl
  simp [runFusionLoop, fusionStep, getC, worldContactPos, worldContactOri,
    forceUsedC, envC2x, envW, updateNth, stC2xSel, stC2x, accC2x, cC2a, cC2b, hv]

theorem stC2x_u : twoContactsU envC2x stC2x = 1 / 2 := by
  unfold twoContactsU
  rw [stC2x_fusion, stC2x_select]
  simp [accC2x, getC, cC2b, stC2xSel]

theorem stC2x_rot : fbRotNext envC2x stC2x = mE 3 := by
  unfold fbRotNext twoContactsBlend
  rw [stC2x_fusion, stC2x_u, stC2x_select]
  simp [accC2x, getC, cC2a, cC2b, stC2xSel, envC2x, envW, mE]
  rw [(by norm_num : (1 - (2 : ℚ)⁻¹) * 6 = 3)]

/-- Claim C2, counterexample: in the cycle `stC2x` exactly two orientation
candidates exist (indices 1 and 0, ordered by ascending force), with force
norms f1 = 1, f2 = 2 and orientation matrices R1 = 1, R2 = `mE 6`.
Because candidate 1 was freshly activated this cycle, its force never
enters `sumForces_orientation`, so the code computes `u = 1/2` instead of
the claimed `u = f1/(f1+f2) = 1/3`, and the resulting base orientation
(here the yaw-merge returns its second argument) differs from the claimed
`R1 · exp((1−1/3)·log(R1ᵀ·R2))`. -/
theorem claim_C2_counterexample :
    (selectForOrientationOdometry stC2x).oriOdometryContacts = [1, 0]
  ∧ (getC (fusionOut envC2x stC2x).contacts 1).forceNorm_ = 1
  ∧ (getC (fusionOut envC2x stC2x).contacts 0).forceNorm_ = 2
  ∧ (getC (fusionOut envC2x stC2x).contacts 1).currentWorldOrientation_ = 1
  ∧ (getC (fusionOut envC2x stC2x).contacts 0).currentWorldOrientation_ = mE 6
  ∧ fbRotNext envC2x stC2x
      ≠ (getC (fusionOut envC2x stC2x).contacts 1).currentWorldOrientation_
        * envC2x.rotExp ((1 - 1 / (1 + 2))
            • envC2x.rotLog
              (((getC (fusionOut envC2x stC2x).contacts 1).currentWorldOrientation_)ᵀ
                * (getC (fusionOut envC2x stC2x).contacts 0).currentWorldOrientation_)) := by
  have hR1 : (getC (fusionOut envC2x stC2x).contacts 1).currentWorldOrientation_
      = 1 := by
    rw [stC2x_fusion]; decide
  have hR2 : (getC (fusionOut envC2x stC2x).contacts 0).currentWorldOrientation_
      = mE 6 := by
    rw [stC2x_fusion]; decide
  refine ⟨by decide, by rw [stC2x_fusion]; decide, by rw [stC2x_fusion]; decide,
    hR1, hR2, ?_⟩
  rw [hR1, hR2, stC2x_rot]
  intro hEq
  have h00 := congrFun (congrFun hEq 0) 0
  simp [mE, envC2x, envW, Matrix.of_apply] at h00

/-- The force used by the fusion loop is not affected by the selection
(which only writes eligibility flags). -/
theorem select_forceUsedC (env : OdoEnv) (st : LOState) (k : Nat) :
    forceUsedC env (selectForOrientationOdometry st).contacts k
      = forceUsedC env st.contacts k := by
  by_cases hd : env.detectionFromThreshold = true <;>
    simp [forceUsedC, hd, select_forceNorm]

/-- Claim C2 (amended): when exactly two orientation candidates exist,
both maintained, and they are the only found contacts marked
orientation-eligible, then — writing f1, f2 for their force norms and
R1, R2 for their orientation matrices (the candidate set is ordered by
ascending force) — the code computes the weight `u = f1/(f1+f2)`, blends
`R1 · exp((1−u)·log(R1ᵀ·R2))` and merges the blend's yaw with the real
robot's tilt; at equal nonzero forces the blend is the geodesic midpoint
of R1 and R2, and when f2 = 0 ≠ f1 (so u = 1) the blend equals R1
(provided the rotation exponential maps 0 to the identity).  Without the
maintained hypothesis the claim is false: see `claim_C2_counterexample`. -/
theorem claim_C2 (env : OdoEnv) (st : LOState) (c1 c2 : Nat)
    (hnd : st.contactsFound.Nodup)
    (hv : ∀ k ∈ st.contactsFound, k < st.contacts.length)
    (hsel : (selectForOrientationOdometry st).oriOdometryContacts = [c1, c2])
    (hm1 : (getC st.contacts c1).wasAlreadySet_ = true)
    (hm2 : (getC st.contacts c2).wasAlreadySet_ = true)
    (hnaive : env.withNaiveYawEstimation = true)
    (honly : ∀ j ∈ st.contactsFound,
      (getC (selectForOrientationOdometry st).contacts j).useForOrientation_
        = true →
      j = c1 ∨ j = c2) :
    twoContactsU env st
      = forceUsedC env st.contacts c1
        / (forceUsedC env st.contacts c1 + forceUsedC env st.contacts c2)
  ∧ fbRotNext env st
      = env.mergeYaw env.realRobotOri (twoContactsBlend env st c1 c2)
  ∧ twoContactsBlend env st c1 c2
      = (getC (fusionOut env st).contacts c1).currentWorldOrientation_
        * env.rotExp
          ((1 - forceUsedC env st.contacts c1
              / (forceUsedC env st.contacts c1 + forceUsedC env st.contacts c2))
            • env.rotLog
              (((getC (fusionOut env st).contacts c1).currentWorldOrientation_)ᵀ
                * (getC (fusionOut env st).contacts c2).currentWorldOrientation_))
  ∧ (forceUsedC env st.contacts c1 = forceUsedC env st.contacts c2 →
     forceUsedC env st.contacts c1 ≠ 0 →
     twoContactsBlend env st c1 c2
       = geodesicMidpoint env
           (getC (fusionOut env st).contacts c1).currentWorldOrientation_
           (getC (fusionOut env st).contacts c2).currentWorldOrientation_)
  ∧ (forceUsedC env st.contacts c2 = 0 →
     forceUsedC env st.contacts c1 ≠ 0 →
     env.rotExp 0 = 1 →
     twoContactsBlend env st c1 c2
       = (getC (fusionOut env st).contacts c1).currentWorldOrientation_) := by
  have hc1O : c1 ∈ (selectForOrientationOdometry st).oriOdometryContacts := by
    rw [hsel]; exact List.mem_cons_self _ _
  have hc2O : c2 ∈ (selectForOrientationOdometry st).oriOdometryContacts := by
    rw [hsel]; exact List.mem_cons_of_mem _ (List.mem_cons_self _ _)
  have hc1F : c1 ∈ st.contactsFound :=
    List.mem_of_mem_filter (select_ori_mem_elig st c1 hc1O)
  have hc2F : c2 ∈ st.contactsFound :=
    List.mem_of_mem_filter (select_ori_mem_elig st c2 hc2O)
  have hne : c1 ≠ c2 := by
    have hpw := select_ori_pairwise st
    rw [hsel] at hpw
    have hlt := (List.pairwise_cons.1 hpw).1 c2 (List.mem_cons_self _ _)
    intro he
    rw [he] at hlt
    exact lt_irrefl _ hlt
  have hflag1 : (getC (selectForOrientationOdometry st).contacts c1).useForOrientation_
      = true := select_flag_mem_true st c1 hc1O (hv c1 hc1F)
  have hflag2 : (getC (selectForOrientationOdometry st).contacts c2).useForOrientation_
      = true := select_flag_mem_true st c2 hc2O (hv c2 hc2F)
  obtain ⟨hSo, hPo⟩ := fusionOut_ori_sums env st hnd
  have hmemF : ∀ k, k ∈ st.contactsFound.filter
      (fun k => (getC st.contacts k).wasAlreadySet_
        && (env.withNaiveYawEstimation
            && (getC (selectForOrientationOdometry st).contacts k).useForOrientation_))
      ↔ (k = c1 ∨ k = c2) := by
    intro k
    constructor
    · intro hk
      have hk2 := List.of_mem_filter hk
      simp only [Bool.and_eq_true] at hk2
      exact honly k (List.mem_of_mem_filter hk) hk2.2.2
    · intro hk
      rcases hk with rfl | rfl
      · exact List.mem_filter.2 ⟨hc1F, by simp [hm1, hnaive, hflag1]⟩
      · exact List.mem_filter.2 ⟨hc2F, by simp [hm2, hnaive, hflag2]⟩
  have hpermF : (st.contactsFound.filter
      (fun k => (getC st.contacts k).wasAlreadySet_
        && (env.withNaiveYawEstimation
            && (getC (selectForOrientationOdometry st).contacts k).useForOrientation_))).Perm
      [c1, c2] := by
    apply List.Subperm.antisymm
    · apply List.Nodup.subperm (List.Nodup.filter _ hnd)
      intro k hk
      rcases (hmemF k).1 hk with rfl | rfl
      · exact List.mem_cons_self _ _
      · exact List.mem_cons_of_mem _ (List.mem_cons_self _ _)
    · apply List.Nodup.subperm (by simp [hne])
      intro k hk
      simp only [List.mem_cons, List.not_mem_nil, or_false] at hk
      exact (hmemF k).2 hk
  have hsum : (fusionOut env st).sumForcesOrientation
      = forceUsedC env st.contacts c1 + forceUsedC env st.contacts c2 := by
    rw [hSo, List.Perm.sum_eq (hpermF.map _)]
    simp
  have hnum : (getC (fusionOut env st).contacts c1).forceNorm_
      = forceUsedC env st.contacts c1 := by
    rw [fusionOut_mem env st c1 hnd hv hc1F,
      fusionContactUpdate_forceNorm env st.robotRot _ c1
        (by rw [select_was]; exact hm1),
      select_forceUsedC]
  have hu : twoContactsU env st
      = forceUsedC env st.contacts c1
        / (forceUsedC env st.contacts c1 + forceUsedC env st.contacts c2) := by
    unfold twoContactsU
    rw [hsel]
    simp only []
    rw [hnum, hsum]
  have hposUp : (fusionOut env st).positionUpdatable = true := by
    rw [(fusionOut_sums env st hnd).2.2]
    have hmem : c1 ∈ maintainedFound st := List.mem_filter.2 ⟨hc1F, hm1⟩
    cases hM : (maintainedFound st).isEmpty
    · rfl
    · rw [List.isEmpty_iff] at hM
      rw [hM] at hmem
      exact absurd hmem (List.not_mem_nil c1)
  have horiUp : (fusionOut env st).orientationUpdatable = true := by
    rw [hPo]
    have hmem := (hmemF c1).2 (Or.inl rfl)
    cases hM : (st.contactsFound.filter
        (fun k => (getC st.contacts k).wasAlreadySet_
          && (env.withNaiveYawEstimation
              && (getC (selectForOrientationOdometry st).contacts k).useForOrientation_))).isEmpty
    · rfl
    · rw [List.isEmpty_iff] at hM
      rw [hM] at hmem
      exact absurd hmem (List.not_mem_nil c1)
  have hrot : fbRotNext env st
      = env.mergeYaw env.realRobotOri (twoContactsBlend env st c1 c2) := by
    unfold fbRotNext
    simp only []
    rw [hposUp, horiUp, hsel]
    simp
  have hblend : twoContactsBlend env st c1 c2
      = (getC (fusionOut env st).contacts c1).currentWorldOrientation_
        * env.rotExp
          ((1 - forceUsedC env st.contacts c1
              / (forceUsedC env st.contacts c1 + forceUsedC env st.contacts c2))
            • env.rotLog
              (((getC (fusionOut env st).contacts c1).currentWorldOrientation_)ᵀ
                * (getC (fusionOut env st).contacts c2).currentWorldOrientation_)) := by
    unfold twoContactsBlend
    rw [hu]
  refine ⟨hu, hrot, hblend, ?_, ?_⟩
  · intro hf hf0
    rw [hblend, geodesicMidpoint]
    rw [← hf]
    have hhalf : forceUsedC env st.contacts c1
        / (forceUsedC env st.contacts c1 + forceUsedC env st.contacts c1)
        = 1 / 2 := by
      rw [div_eq_iff (by intro h0; exact hf0 (by linarith))]
      ring
    rw [hhalf]
    norm_num
  · intro hf2 hf0 hexp
    rw [hblend, hf2, add_zero, div_self hf0]
    simp [hexp]

/-- Claim C2, witness for the amended statement: two maintained candidates
with forces 1 and 2; the weight is `u = f1/(f1+f2)` and the blend follows
the documented formula before being yaw-merged. -/
theorem claim_C2_witness :
    ((selectForOrientationOdometry stC2w).oriOdometryContacts = [1, 0]
      ∧ (getC stC2w.contacts 1).wasAlreadySet_ = true
      ∧ (getC stC2w.contacts 0).wasAlreadySet_ = true
      ∧ envC2w.withNaiveYawEstimation = true)
  ∧ twoContactsU envC2w stC2w
      = forceUsedC envC2w stC2w.contacts 1
        / (forceUsedC envC2w stC2w.contacts 1 + forceUsedC envC2w stC2w.contacts 0)
  ∧ fbRotNext envC2w stC2w
      = envC2w.mergeYaw envC2w.realRobotOri (twoContactsBlend envC2w stC2w 1 0)
  ∧ twoContactsBlend envC2w stC2w 1 0
      = (getC (fusionOut envC2w stC2w).contacts 1).currentWorldOrientation_
        * envC2w.rotExp
          ((1 - forceUsedC envC2w stC2w.contacts 1
              / (forceUsedC envC2w stC2w.contacts 1
                + forceUsedC envC2w stC2w.contacts 0))
            • envC2w.rotLog
              (((getC (fusionOut envC2w stC2w).contacts 1).currentWorldOrientation_)ᵀ
                * (getC (fusionOut envC2w stC2w).contacts 0).currentWorldOrientation_)) :=
  ⟨⟨by decide, by decide, by decide, by decide⟩,
   (claim_C2 envC2w stC2w 1 0 (by decide) (by decide) (by decide) (by decide)
     (by decide) (by decide) (by decide)).1,
   (claim_C2 envC2w stC2w 1 0 (by decide) (by decide) (by decide) (by decide)
     (by decide) (by decide) (by decide)).2.1,
   (claim_C2 envC2w stC2w 1 0 (by decide) (by decide) (by decide) (by decide)
     (by decide) (by decide) (by decide)).2.2.1⟩

end McStateObservation
